import Mathlib

/-!
Verification of the betting-market engine of the colosseum repository.

The development shallowly embeds the decimal arithmetic layer
(bignumber.js configured with DECIMAL_PLACES 18 and ROUND_DOWN in
server/src/utils/bignumber.ts), the market-making engine
(MarketMakingEngine.calculateTeamBattleOdds and
calculateBattleRoyaleOdds), the AMM betting manager
(server/src/BettingManager.ts) and the parimutuel betting manager
(server/src/MvpBettingManager.ts), and proves or refutes the
specification claims about them.

Conventions of the embedding:
  - bignumber.js values are modelled by `BN`: a rational number, plus
    the special values Infinity, -Infinity and NaN.  Addition,
    subtraction and multiplication are exact in bignumber.js; division
    rounds the quotient to 18 decimal places toward zero (ROUND_DOWN),
    modelled by `trunc18`.  Division of a nonzero finite value by zero
    yields a signed infinity, 0/0 yields NaN, and NaN propagates
    through arithmetic, comparisons (which are then false) and
    BigNumber.min / BigNumber.max (which then return NaN).
  - Monetary values stored in the database (balances, stake amounts,
    pool volumes) are finite decimals; they are modelled directly by
    rationals.
  - A Prisma interactive transaction is a pure function from the
    database state to either an error (the thrown Error, in which case
    the transaction rolls back and the state is unchanged) or the
    updated state together with the returned value.
-/

namespace Colosseum

/-- Integer part of a rational, rounded toward zero. -/
def truncz (q : ℚ) : ℤ := if 0 ≤ q then ⌊q⌋ else ⌈q⌉

/-- Rounding of a rational to 18 decimal places toward zero: the
ROUND_DOWN mode that server/src/utils/bignumber.ts configures for
quotients (DECIMAL_PLACES: 18, ROUNDING_MODE: ROUND_DOWN). -/
def trunc18 (q : ℚ) : ℚ := (truncz (q * 10 ^ 18) : ℚ) / 10 ^ 18

theorem trunc18_zero : trunc18 0 = 0 := by
  simp [trunc18, truncz]

theorem truncz_nonneg {q : ℚ} (h : 0 ≤ q) : 0 ≤ truncz q := by
  simp only [truncz, if_pos h]
  exact Int.le_floor.mpr (by exact_mod_cast h)

theorem trunc18_nonneg {q : ℚ} (h : 0 ≤ q) : 0 ≤ trunc18 q := by
  have h1 : (0:ℚ) ≤ q * 10 ^ 18 := by positivity
  have h2 := truncz_nonneg h1
  have h3 : (0:ℚ) ≤ (truncz (q * 10 ^ 18) : ℚ) := by exact_mod_cast h2
  have h4 : (0:ℚ) < 10 ^ 18 := by positivity
  exact div_nonneg h3 (le_of_lt h4)

theorem truncz_le {q : ℚ} (h : 0 ≤ q) : (truncz q : ℚ) ≤ q := by
  simp only [truncz, if_pos h]
  exact Int.floor_le q

theorem trunc18_le {q : ℚ} (h : 0 ≤ q) : trunc18 q ≤ q := by
  have h1 : (0:ℚ) ≤ q * 10 ^ 18 := by positivity
  have h2 := truncz_le h1
  have h4 : (0:ℚ) < 10 ^ 18 := by positivity
  calc trunc18 q = (truncz (q * 10 ^ 18) : ℚ) / 10 ^ 18 := rfl
    _ ≤ (q * 10 ^ 18) / 10 ^ 18 := by exact div_le_div_of_nonneg_right h2 h4.le
    _ = q := by field_simp

/-- A bignumber.js value: a finite (exact) rational, Infinity,
-Infinity, or NaN. -/
inductive BN where
  | num (q : ℚ)
  | posInf
  | negInf
  | nan
deriving DecidableEq, Repr

namespace BN

/-- BigNumber.prototype.plus (exact on finite values). -/
def plus : BN → BN → BN
  | nan, _ => nan
  | _, nan => nan
  | num a, num b => num (a + b)
  | num _, posInf => posInf
  | posInf, num _ => posInf
  | num _, negInf => negInf
  | negInf, num _ => negInf
  | posInf, posInf => posInf
  | negInf, negInf => negInf
  | posInf, negInf => nan
  | negInf, posInf => nan

/-- BigNumber.prototype.minus (exact on finite values). -/
def minus : BN → BN → BN
  | nan, _ => nan
  | _, nan => nan
  | num a, num b => num (a - b)
  | num _, posInf => negInf
  | posInf, num _ => posInf
  | num _, negInf => posInf
  | negInf, num _ => negInf
  | posInf, posInf => nan
  | negInf, negInf => nan
  | posInf, negInf => posInf
  | negInf, posInf => negInf

/-- BigNumber.prototype.times (exact on finite values). -/
def times : BN → BN → BN
  | nan, _ => nan
  | _, nan => nan
  | num a, num b => num (a * b)
  | num a, posInf => if a = 0 then nan else if 0 < a then posInf else negInf
  | posInf, num a => if a = 0 then nan else if 0 < a then posInf else negInf
  | num a, negInf => if a = 0 then nan else if 0 < a then negInf else posInf
  | negInf, num a => if a = 0 then nan else if 0 < a then negInf else posInf
  | posInf, posInf => posInf
  | negInf, negInf => posInf
  | posInf, negInf => negInf
  | negInf, posInf => negInf

/-- BigNumber.prototype.dividedBy: the quotient of finite values is
rounded to 18 decimal places toward zero; x/0 is a signed infinity for
x nonzero and NaN for x = 0. -/
def div : BN → BN → BN
  | nan, _ => nan
  | _, nan => nan
  | num a, num b =>
      if b = 0 then (if a = 0 then nan else if 0 < a then posInf else negInf)
      else num (trunc18 (a / b))
  | num _, posInf => num 0
  | num _, negInf => num 0
  | posInf, num b => if 0 ≤ b then posInf else negInf
  | negInf, num b => if 0 ≤ b then negInf else posInf
  | posInf, posInf => nan
  | negInf, negInf => nan
  | posInf, negInf => nan
  | negInf, posInf => nan

/-- BigNumber.prototype.isZero. -/
def isZero : BN → Bool
  | num a => a = 0
  | _ => false

/-- BigNumber.prototype.isLessThanOrEqualTo (false when either side is
NaN). -/
def le : BN → BN → Bool
  | nan, _ => false
  | _, nan => false
  | num a, num b => a ≤ b
  | num _, posInf => true
  | posInf, num _ => false
  | num _, negInf => false
  | negInf, num _ => true
  | posInf, posInf => true
  | negInf, negInf => true
  | posInf, negInf => false
  | negInf, posInf => true

/-- BigNumber.prototype.isLessThan (false when either side is NaN). -/
def lt : BN → BN → Bool
  | nan, _ => false
  | _, nan => false
  | num a, num b => a < b
  | num _, posInf => true
  | posInf, num _ => false
  | num _, negInf => false
  | negInf, num _ => true
  | posInf, posInf => false
  | negInf, negInf => false
  | posInf, negInf => false
  | negInf, posInf => true

/-- BigNumber.prototype.isGreaterThan (false when either side is NaN). -/
def gt (a b : BN) : Bool := lt b a

/-- BigNumber.min of two values (NaN if either argument is NaN). -/
def bmin : BN → BN → BN
  | nan, _ => nan
  | _, nan => nan
  | num a, num b => num (min a b)
  | num a, posInf => num a
  | posInf, num a => num a
  | _, negInf => negInf
  | negInf, _ => negInf
  | posInf, posInf => posInf

/-- BigNumber.max of two values (NaN if either argument is NaN). -/
def bmax : BN → BN → BN
  | nan, _ => nan
  | _, nan => nan
  | num a, num b => num (max a b)
  | num a, negInf => num a
  | negInf, num a => num a
  | _, posInf => posInf
  | posInf, _ => posInf
  | negInf, negInf => negInf

theorem plus_num_num (a b : ℚ) : plus (num a) (num b) = num (a + b) := rfl

theorem minus_num_num (a b : ℚ) : minus (num a) (num b) = num (a - b) := rfl

theorem times_num_num (a b : ℚ) : times (num a) (num b) = num (a * b) := rfl

theorem isZero_num (a : ℚ) : (num a).isZero = decide (a = 0) := rfl

theorem le_num_num (a b : ℚ) : le (num a) (num b) = decide (a ≤ b) := rfl

theorem lt_num_num (a b : ℚ) : lt (num a) (num b) = decide (a < b) := rfl

theorem bmin_num_num (a b : ℚ) : bmin (num a) (num b) = num (min a b) := rfl

theorem bmax_num_num (a b : ℚ) : bmax (num a) (num b) = num (max a b) := rfl

theorem bmin_posInf_num (a : ℚ) : bmin posInf (num a) = num a := rfl

theorem div_num_num (a b : ℚ) (hb : ¬ b = 0) :
    div (num a) (num b) = num (trunc18 (a / b)) := by
  simp [div, hb]

theorem div_num_zero_pos (a : ℚ) (ha : 0 < a) :
    div (num a) (num 0) = posInf := by
  simp [div, ha, ha.ne.symm]

end BN

/-! Constants of server/src/constants.ts. -/

def F_PLATFORM : ℚ := 0.0345

def F_PLAYER : ℚ := 0.02

def F_HOUSE : ℚ := F_PLATFORM + F_PLAYER

def MIN_ODDS : ℚ := 1.05

def MAX_ODDS_TEAM_BATTLE : ℚ := 20.0

def MAX_ODDS_BATTLE_ROYALE : ℚ := 100.0

def SAFETY_BUFFER : ℚ := 0.9

def BOOTSTRAP_LIQUIDITY : ℚ := 100

namespace MarketMakingEngine

/-- Result record of the current MarketMakingEngine.calculateTeamBattleOdds
(the version returning odds_a / odds_b / p_a / p_b, which is the one
BettingManager.getOdds destructures). -/
structure TeamOdds where
  odds_a : BN
  odds_b : BN
  p_a : BN
  p_b : BN
deriving DecidableEq, Repr

/-- Current MarketMakingEngine.calculateTeamBattleOdds.  There is no
cold-start branch: s = v_total / 20 and the probabilities divide by
v_a + v_b + 2 s, which is zero when both volumes are zero (0/0 = NaN
in bignumber.js).  The initial odds computed from p_a and p_b are dead
local variables in the source; the returned odds are final_odds1 and
final_odds2. -/
def calculateTeamBattleOdds (v_a v_b : BN) : TeamOdds :=
  let v_total := v_a.plus v_b
  let s := v_total.div (BN.num 20)
  let p_a := (v_b.plus s).div ((v_a.plus v_b).plus (s.times (BN.num 2)))
  let p_b := (v_a.plus s).div ((v_a.plus v_b).plus (s.times (BN.num 2)))
  let _odds_a := (BN.num 1).div p_a
  let _odds_b := (BN.num 1).div p_b
  let p1_adj := (p_a.times ((BN.num 1).minus s)).plus ((BN.num 0.5).times s)
  let p2_adj := (p_b.times ((BN.num 1).minus s)).plus ((BN.num 0.5).times s)
  let max_safe_odds1 :=
    if v_a.isZero then BN.num MAX_ODDS_TEAM_BATTLE
    else (v_b.times (BN.num SAFETY_BUFFER)).div
      (v_a.times ((BN.num 1).minus (BN.num F_HOUSE)))
  let max_safe_odds2 :=
    if v_b.isZero then BN.num MAX_ODDS_TEAM_BATTLE
    else (v_a.times (BN.num SAFETY_BUFFER)).div
      (v_b.times ((BN.num 1).minus (BN.num F_HOUSE)))
  let p1_final := p1_adj.times ((BN.num 1).minus (BN.num F_HOUSE))
  let p2_final := p2_adj.times ((BN.num 1).minus (BN.num F_HOUSE))
  let market_odds1 := (BN.num 1).div p1_final
  let market_odds2 := (BN.num 1).div p2_final
  let final_odds1 := market_odds1.bmin max_safe_odds1
  let final_odds2 := market_odds2.bmin max_safe_odds2
  let final_odds1 := (BN.num MAX_ODDS_TEAM_BATTLE).bmin ((BN.num MIN_ODDS).bmax final_odds1)
  let final_odds2 := (BN.num MAX_ODDS_TEAM_BATTLE).bmin ((BN.num MIN_ODDS).bmax final_odds2)
  { odds_a := final_odds1, odds_b := final_odds2, p_a := p_a, p_b := p_b }

/-- Result record of the earlier calculateTeamBattleOdds (the version
returning odds1 / odds2, kept in the same source file). -/
structure TeamOddsLegacy where
  odds1 : BN
  odds2 : BN
deriving DecidableEq, Repr

/-- Earlier MarketMakingEngine.calculateTeamBattleOdds (odds1 / odds2):
it guards the cold start (v_total = 0) with fixed initial odds
1 / (0.5 * (1 - F_HOUSE)) clamped to the two-sided bounds, and uses
smoothing s = max(0.05, 0.3 - v_total / 50). -/
def calculateTeamBattleOddsLegacy (v1 v2 : BN) : TeamOddsLegacy :=
  let v_total := v1.plus v2
  if v_total.isZero then
    let initialProb := (BN.num 0.5).times ((BN.num 1).minus (BN.num F_HOUSE))
    let initialOdds := (BN.num 1).div initialProb
    { odds1 := (BN.num MAX_ODDS_TEAM_BATTLE).bmin ((BN.num MIN_ODDS).bmax initialOdds),
      odds2 := (BN.num MAX_ODDS_TEAM_BATTLE).bmin ((BN.num MIN_ODDS).bmax initialOdds) }
  else
    let p1_base := v2.div v_total
    let p2_base := v1.div v_total
    let s := (BN.num 0.05).bmax ((BN.num 0.3).minus (v_total.div (BN.num 50)))
    let p1_adj := (p1_base.times ((BN.num 1).minus s)).plus ((BN.num 0.5).times s)
    let p2_adj := (p2_base.times ((BN.num 1).minus s)).plus ((BN.num 0.5).times s)
    let max_safe_odds1 :=
      if v1.isZero then BN.num MAX_ODDS_TEAM_BATTLE
      else (v2.times (BN.num SAFETY_BUFFER)).div
        (v1.times ((BN.num 1).minus (BN.num F_HOUSE)))
    let max_safe_odds2 :=
      if v2.isZero then BN.num MAX_ODDS_TEAM_BATTLE
      else (v1.times (BN.num SAFETY_BUFFER)).div
        (v2.times ((BN.num 1).minus (BN.num F_HOUSE)))
    let p1_final := p1_adj.times ((BN.num 1).minus (BN.num F_HOUSE))
    let p2_final := p2_adj.times ((BN.num 1).minus (BN.num F_HOUSE))
    let market_odds1 := (BN.num 1).div p1_final
    let market_odds2 := (BN.num 1).div p2_final
    let final_odds1 := market_odds1.bmin max_safe_odds1
    let final_odds2 := market_odds2.bmin max_safe_odds2
    { odds1 := (BN.num MAX_ODDS_TEAM_BATTLE).bmin ((BN.num MIN_ODDS).bmax final_odds1),
      odds2 := (BN.num MAX_ODDS_TEAM_BATTLE).bmin ((BN.num MIN_ODDS).bmax final_odds2) }

/-- MarketMakingEngine.calculateBattleRoyaleOdds on an association list
of participant id to pool volume (JS Map preserves insertion order, so
a list of pairs with distinct keys is a faithful model). -/
def calculateBattleRoyaleOdds (volumes : List (String × BN)) : List (String × BN) :=
  let characterIds := volumes.map Prod.fst
  let n := BN.num (characterIds.length : ℚ)
  let v_total := (volumes.map Prod.snd).foldl (fun acc vol => acc.plus vol) (BN.num 0)
  if v_total.isZero then
    let initialOdds := n.times ((BN.num 1).minus (BN.num F_HOUSE))
    let boundedInitialOdds := (BN.num MAX_ODDS_BATTLE_ROYALE).bmin ((BN.num MIN_ODDS).bmax initialOdds)
    characterIds.map (fun id => (id, boundedInitialOdds))
  else
    let p_base := (BN.num 1).div n
    let inverseVolumes := volumes.map (fun pr =>
      (pr.fst, (BN.num 0.1).bmax ((v_total.minus pr.snd).plus (BN.num 1))))
    let total_inverse_volume :=
      (inverseVolumes.map Prod.snd).foldl (fun acc x => acc.plus x) (BN.num 0)
    let marketProbabilities := inverseVolumes.map (fun pr =>
      (pr.fst, pr.snd.div total_inverse_volume))
    let smoothing_weight := (BN.num 0.05).bmax ((BN.num 0.3).minus (v_total.div (BN.num 50)))
    marketProbabilities.map (fun pr =>
      let p_combined := (p_base.times smoothing_weight).plus
        (pr.snd.times ((BN.num 1).minus smoothing_weight))
      let p_final := p_combined.times ((BN.num 1).minus (BN.num F_HOUSE))
      let odds := (BN.num 1).div p_final
      (pr.fst, (BN.num MAX_ODDS_BATTLE_ROYALE).bmin ((BN.num MIN_ODDS).bmax odds)))

end MarketMakingEngine

/-! Data model (prisma schema: User, Battle, Character, Bet, BettingPool).
Characters are identified by their id strings; a battle's participant
list is its list of character ids. -/

inductive BetStatus where
  | PENDING
  | PENDING_LIQUIDITY
  | WON
  | LOST
  | CANCELLED
deriving DecidableEq, Repr

inductive BattleStatus where
  | PENDING
  | ACTIVE
  | FINISHED
  | CANCELLED
deriving DecidableEq, Repr

inductive BattleType where
  | TEAM_BATTLE
  | BATTLE_ROYALE
deriving DecidableEq, Repr

structure User where
  id : String
  balance : ℚ
deriving DecidableEq, Repr

structure Battle where
  id : String
  type : BattleType
  startTime : ℤ
  status : BattleStatus
  participants : List String
  winnerId : Option String
deriving DecidableEq, Repr

structure BettingPool where
  battleId : String
  characterId : String
  totalVolume : ℚ
deriving DecidableEq, Repr

structure Bet where
  id : ℕ
  userId : String
  battleId : String
  characterId : String
  amount : ℚ
  odds : BN
  status : BetStatus
deriving DecidableEq, Repr

/-- The transactional store state. `nextBetId` models the id sequence
used by bet creation. -/
structure DB where
  users : List User
  battles : List Battle
  bets : List Bet
  pools : List BettingPool
  nextBetId : ℕ
deriving DecidableEq, Repr

/-- The distinct Error values thrown by the two betting managers; a
thrown error aborts the enclosing transaction, so an error result
leaves the store unchanged. -/
inductive BetError where
  | notFound (msg : String)
  | bettingClosed
  | bettingNotActive
  | notAParticipant
  | insufficientBalance
  | oddsUnavailable
  | liquidityConstraint
  | betCapExceeded
  | invalidState
  | teamBattleParticipants
deriving DecidableEq, Repr

def findUser (db : DB) (userId : String) : Option User :=
  db.users.find? (fun u => u.id = userId)

def findBattle (db : DB) (battleId : String) : Option Battle :=
  db.battles.find? (fun b => b.id = battleId)

def findPool (db : DB) (battleId characterId : String) : Option BettingPool :=
  db.pools.find? (fun p => p.battleId = battleId ∧ p.characterId = characterId)

def getBalance (db : DB) (userId : String) : Option ℚ :=
  (findUser db userId).map User.balance

def getBetStatus (db : DB) (betId : ℕ) : Option BetStatus :=
  (db.bets.find? (fun b => b.id = betId)).map Bet.status

def poolVolume (db : DB) (battleId characterId : String) : Option ℚ :=
  (findPool db battleId characterId).map BettingPool.totalVolume

/-- tx.user.update setting the balance to an absolute value. -/
def setUserBalance (db : DB) (userId : String) (v : ℚ) : DB :=
  { db with users := db.users.map (fun u =>
      if u.id = userId then { u with balance := v } else u) }

/-- tx.user.update with balance: increment. -/
def incrementUserBalance (db : DB) (userId : String) (x : ℚ) : DB :=
  { db with users := db.users.map (fun u =>
      if u.id = userId then { u with balance := u.balance + x } else u) }

/-- tx.user.update with balance: decrement. -/
def decrementUserBalance (db : DB) (userId : String) (x : ℚ) : DB :=
  { db with users := db.users.map (fun u =>
      if u.id = userId then { u with balance := u.balance - x } else u) }

/-- tx.bet.update setting the status of the bet with the given id. -/
def setBetStatus (db : DB) (betId : ℕ) (st : BetStatus) : DB :=
  { db with bets := db.bets.map (fun b =>
      if b.id = betId then { b with status := st } else b) }

/-- tx.bettingPool.upsert with totalVolume: increment on the
(battleId, characterId) key, creating the row with volume x when it
does not exist. -/
def upsertPoolIncrement (db : DB) (battleId characterId : String) (x : ℚ) : DB :=
  if db.pools.any (fun p => p.battleId = battleId ∧ p.characterId = characterId) then
    { db with pools := db.pools.map (fun p =>
        if p.battleId = battleId ∧ p.characterId = characterId
        then { p with totalVolume := p.totalVolume + x } else p) }
  else
    { db with pools := db.pools ++ [⟨battleId, characterId, x⟩] }

/-- tx.bettingPool.update with totalVolume: decrement (the callers only
reach this with an existing pool row, created by the bet that is being
refunded). -/
def decrementPoolVolume (db : DB) (battleId characterId : String) (x : ℚ) : DB :=
  { db with pools := db.pools.map (fun p =>
      if p.battleId = battleId ∧ p.characterId = characterId
      then { p with totalVolume := p.totalVolume - x } else p) }

/-- tx.bet.create. -/
def createBet (db : DB) (userId battleId characterId : String) (amount : ℚ)
    (odds : BN) (status : BetStatus) : DB × Bet :=
  let bet : Bet :=
    { id := db.nextBetId, userId := userId, battleId := battleId,
      characterId := characterId, amount := amount, odds := odds, status := status }
  ({ db with bets := db.bets ++ [bet], nextBetId := db.nextBetId + 1 }, bet)

namespace BettingManager

/-- BettingManager.isBetValid of server/src/BettingManager.ts.  The
source builds `totalVolume` with `bigNumberPool.get(0)` and then runs
`Array.from(pools.values()).forEach(vol => { totalVolume.plus(vol) })`;
BigNumber.plus returns a fresh immutable instance whose value is
discarded, so `totalVolume` keeps the value 0 it was created with,
which is what this embedding records. -/
def isBetValid (battle : Battle) (characterId : String) (amount odds : BN)
    (pools : List (String × BN)) : Bool :=
  let netPayout := amount.times odds
  let requiredLiquidity := netPayout.minus amount
  let totalVolume := BN.num 0
  let opposingVolume :=
    if totalVolume.isZero then BN.num BOOTSTRAP_LIQUIDITY
    else
      match battle.type with
      | .TEAM_BATTLE =>
        match (pools.map Prod.fst).find? (fun id => id ≠ characterId) with
        | some opposingCharacterId =>
          match pools.find? (fun pr => pr.fst = opposingCharacterId) with
          | some pr => pr.snd
          | none => BN.num 0
        | none => BN.num 0
      | .BATTLE_ROYALE =>
        let currentCharacterVolume :=
          match pools.find? (fun pr => pr.fst = characterId) with
          | some pr => pr.snd
          | none => BN.num 0
        totalVolume.minus currentCharacterVolume
  let availableLiquidity := opposingVolume.times (BN.num SAFETY_BUFFER)
  requiredLiquidity.le availableLiquidity

/-- BettingManager.getOdds: builds the per-participant volume map from
the battle's pools (missing rows count as volume 0) and dispatches on
the battle type; a team battle must have exactly two participants. -/
def getOdds (db : DB) (battleId : String) : Except BetError (List (String × BN)) :=
  match findBattle db battleId with
  | none => .error (.notFound "Battle not found")
  | some battle =>
    let pools := battle.participants.map (fun p =>
      (p, BN.num (match findPool db battleId p with
                  | some pl => pl.totalVolume
                  | none => 0)))
    match battle.type with
    | .TEAM_BATTLE =>
      match battle.participants with
      | [pa, pb] =>
        let pool_a : ℚ := match findPool db battleId pa with
          | some pl => pl.totalVolume
          | none => 0
        let pool_b : ℚ := match findPool db battleId pb with
          | some pl => pl.totalVolume
          | none => 0
        let r := MarketMakingEngine.calculateTeamBattleOdds (BN.num pool_a) (BN.num pool_b)
        .ok [(pa, r.odds_a), (pb, r.odds_b)]
      | _ => .error .teamBattleParticipants
    | .BATTLE_ROYALE => .ok (MarketMakingEngine.calculateBattleRoyaleOdds pools)

/-- BettingManager.placeBet (AMM mode), as one transaction: battle
lookup, lock-window check, user lookup, ACTIVE-status check,
participant-membership check, balance check, odds computation,
liquidity validation, then debit + bet insert + gross pool increment. -/
def placeBet (now : ℤ) (userId battleId characterId : String) (amount : ℚ)
    (db : DB) : Except BetError (DB × Bet) :=
  match findBattle db battleId with
  | none => .error (.notFound "Battle not found")
  | some battle =>
    let twoMinutesBeforeStart := battle.startTime - 2 * 60 * 1000
    if now ≥ twoMinutesBeforeStart then .error .bettingClosed
    else
      match findUser db userId with
      | none => .error (.notFound "User not found")
      | some user =>
        if battle.status ≠ .ACTIVE then .error .bettingNotActive
        else if ¬ (battle.participants.any (fun p => p = characterId)) then
          .error .notAParticipant
        else if user.balance < amount then .error .insufficientBalance
        else
          match getOdds db battleId with
          | .error e => .error e
          | .ok currentOdds =>
            match currentOdds.find? (fun pr => pr.fst = characterId) with
            | none => .error .oddsUnavailable
            | some oddsPr =>
              let pools := battle.participants.map (fun p =>
                (p, BN.num (match findPool db battleId p with
                            | some pl => pl.totalVolume
                            | none => 0)))
              if ¬ isBetValid battle characterId (BN.num amount) oddsPr.snd pools then
                .error .liquidityConstraint
              else
                let newBalance := user.balance - amount
                let db1 := setUserBalance db userId newBalance
                let dbAndBet := createBet db1 userId battleId characterId amount oddsPr.snd .PENDING
                let db3 := upsertPoolIncrement dbAndBet.fst battleId characterId amount
                .ok (db3, dbAndBet.snd)

end BettingManager

/-- Modelled from the spec: the accept/reject rule of section 4.3
(Liquidity Validator), which `BettingManager.isBetValid` is supposed to
implement.  `requiredLiquidity = amount * odds - amount`;
`opposingVolume` is the other side's volume for a two-sided market,
total minus own side for a multi-sided one, and BOOTSTRAP_LIQUIDITY
when the total pool volume is zero; accept iff
`requiredLiquidity ≤ opposingVolume * SAFETY_BUFFER`. -/
def isBetValidSpec (battle : Battle) (characterId : String) (amount odds : ℚ)
    (pools : List (String × ℚ)) : Bool :=
  let requiredLiquidity := amount * odds - amount
  let totalVolume := (pools.map Prod.snd).foldl (fun a b => a + b) 0
  let opposingVolume :=
    if totalVolume = 0 then BOOTSTRAP_LIQUIDITY
    else
      match battle.type with
      | .TEAM_BATTLE =>
        match pools.find? (fun pr => pr.fst ≠ characterId) with
        | some pr => pr.snd
        | none => 0
      | .BATTLE_ROYALE =>
        let currentCharacterVolume :=
          match pools.find? (fun pr => pr.fst = characterId) with
          | some pr => pr.snd
          | none => 0
        totalVolume - currentCharacterVolume
  requiredLiquidity ≤ opposingVolume * SAFETY_BUFFER

namespace MvpBettingManager

/-- MvpBettingManager.placeBet: split-fee parimutuel placement.  Checks
(in source order): user/battle existence, the 2-minute lock window,
balance; finds an opposing character id (any participant whose id
differs from the one being bet on); determines opposing liquidity;
flips queued PENDING_LIQUIDITY bets to PENDING when opposing liquidity
exists, otherwise applies the 1000-unit first-bet cap; then debits the
gross amount, creates the bet (odds recorded as 1) and increments the
participant's pool by the net contribution amount * (1 - F_HOUSE).
There is no battle-status check and no participant-membership check
for the character being bet on. -/
def placeBet (now : ℤ) (userId battleId characterId : String) (amount : ℚ)
    (db : DB) : Except BetError (DB × Bet) :=
  match findUser db userId, findBattle db battleId with
  | some user, some battle =>
    let twoMinutesBeforeStart := battle.startTime - 2 * 60 * 1000
    if now ≥ twoMinutesBeforeStart then .error .bettingClosed
    else if user.balance < amount then .error .insufficientBalance
    else
      match battle.participants.find? (fun p => p ≠ characterId) with
      | none => .error (.notFound "Opposing character not found")
      | some opposingCharacterId =>
        let opposingPool := findPool db battleId opposingCharacterId
        let opposingLiquidityExists : Bool :=
          match opposingPool with
          | some pl => decide (0 < pl.totalVolume)
          | none => false
        let poolContribution := amount - amount * F_HOUSE
        if opposingLiquidityExists then
          let db1 : DB := { db with bets := db.bets.map (fun b =>
            if b.battleId = battleId ∧ b.status = .PENDING_LIQUIDITY
            then { b with status := .PENDING } else b) }
          let db2 := decrementUserBalance db1 userId amount
          let dbAndBet := createBet db2 userId battleId characterId amount (BN.num 1) .PENDING
          let db4 := upsertPoolIncrement dbAndBet.fst battleId characterId poolContribution
          .ok (db4, dbAndBet.snd)
        else if amount > 1000 then .error .betCapExceeded
        else
          let db2 := decrementUserBalance db userId amount
          let dbAndBet := createBet db2 userId battleId characterId amount (BN.num 1) .PENDING_LIQUIDITY
          let db4 := upsertPoolIncrement dbAndBet.fst battleId characterId poolContribution
          .ok (db4, dbAndBet.snd)
  | _, _ => .error (.notFound "User or Battle not found")

/-- One iteration of the PENDING_LIQUIDITY refund loop of
MvpBettingManager.settleBattle: credit amount - amount * fImm back to
the bettor (fImm is F_PLATFORM_IMMEDIATE, whose defining constant is
not part of the sources, so it is kept as a parameter), remove the
bet's net contribution amount - amount * F_HOUSE from its pool, and
mark the bet CANCELLED. -/
def refundPendingBet (fImm : ℚ) (battleId : String) (d : DB) (bet : Bet) : DB :=
  let betAmount := bet.amount
  let refundAmount := betAmount - betAmount * fImm
  let d1 := incrementUserBalance d bet.userId refundAmount
  let contributionToRemove := betAmount - betAmount * F_HOUSE
  let d2 := decrementPoolVolume d1 battleId bet.characterId contributionToRemove
  setBetStatus d2 bet.id .CANCELLED

/-- One iteration of the winners-payout loop of
MvpBettingManager.settleBattle when losers exist: pro-rata share of the
losing pool by gross stake (the division is an 18-decimal ROUND_DOWN
BigNumber division), payout = gross stake + winnings, mark WON. -/
def payWinnerShare (totalWageredByWinners totalLosingPool : ℚ) (d : DB) (bet : Bet) : DB :=
  let proRataShare := trunc18 (bet.amount / totalWageredByWinners)
  let winnings := proRataShare * totalLosingPool
  let payoutAmount := bet.amount + winnings
  setBetStatus (incrementUserBalance d bet.userId payoutAmount) bet.id .WON

/-- One iteration of the winners-payout loop of
MvpBettingManager.settleBattle when no losers exist: credit the gross
stake amount back and mark WON. -/
def refundWinnerStake (d : DB) (bet : Bet) : DB :=
  setBetStatus (incrementUserBalance d bet.userId bet.amount) bet.id .WON

/-- One iteration of the losers loop of MvpBettingManager.settleBattle. -/
def markBetLost (d : DB) (bet : Bet) : DB :=
  setBetStatus d bet.id .LOST

/-- MvpBettingManager.settleBattle.  The battle row is loaded once with
its bets and pools; the pending-bet refunds then mutate the store, but
`totalLosingPool` is computed from the pool rows as loaded (the
in-memory snapshot), exactly as in the source.  The final update marks
the battle FINISHED and records the winner. -/
def settleBattle (fImm : ℚ) (battleId winningCharacterId : String)
    (db : DB) : Except BetError DB :=
  match findBattle db battleId with
  | none => .error (.notFound "Battle not found for settlement.")
  | some battle =>
    if battle.status ≠ .ACTIVE then .error .invalidState
    else
      let battleBets := db.bets.filter (fun b => b.battleId = battleId)
      let battlePools := db.pools.filter (fun p => p.battleId = battleId)
      let pendingBets := battleBets.filter (fun b => b.status = .PENDING_LIQUIDITY)
      let db1 := pendingBets.foldl (refundPendingBet fImm battleId) db
      let activeBets := battleBets.filter (fun b => b.status = .PENDING)
      let winningBets := activeBets.filter (fun b => b.characterId = winningCharacterId)
      let losingBets := activeBets.filter (fun b => b.characterId ≠ winningCharacterId)
      let db2 :=
        if winningBets.length > 0 ∧ losingBets.length > 0 then
          let totalLosingPool :=
            ((battlePools.filter (fun p => p.characterId ≠ winningCharacterId)).map
              BettingPool.totalVolume).foldl (fun a b => a + b) 0
          let totalWageredByWinners :=
            (winningBets.map Bet.amount).foldl (fun a b => a + b) 0
          if 0 < totalWageredByWinners then
            winningBets.foldl (payWinnerShare totalWageredByWinners totalLosingPool) db1
          else db1
        else if winningBets.length > 0 ∧ losingBets.length = 0 then
          winningBets.foldl refundWinnerStake db1
        else db1
      let db3 := losingBets.foldl markBetLost db2
      let db4 : DB := { db3 with battles := db3.battles.map (fun b =>
        if b.id = battleId
        then { b with status := .FINISHED, winnerId := some winningCharacterId }
        else b) }
      .ok db4

end MvpBettingManager

/-! Observation lemmas: how the store operations affect the first
matching row that `find?` returns. -/

theorem find?_map_of_preserve {α : Type} (pb : α → Bool) (g : α → α) (l : List α)
    (hg : ∀ a, pb (g a) = pb a) :
    (l.map g).find? pb = (l.find? pb).map g := by
  induction l with
  | nil => rfl
  | cons x xs ih =>
    by_cases hx : pb x
    · rw [List.map_cons, List.find?_cons_of_pos _ (by rw [hg x]; exact hx),
        List.find?_cons_of_pos _ hx]
      rfl
    · have hx2 : pb x = false := by revert hx; cases pb x <;> simp
      rw [List.map_cons, List.find?_cons_of_neg _ (by rw [hg x, hx2]; simp),
        List.find?_cons_of_neg _ (by rw [hx2]; simp), ih]

theorem getBalance_incrementUserBalance (db : DB) (u2 : String) (x : ℚ) (u : String) :
    getBalance (incrementUserBalance db u2 x) u
      = if u2 = u then (getBalance db u).map (fun v => v + x) else getBalance db u := by
  unfold getBalance findUser incrementUserBalance
  rw [show ({ db with users := db.users.map (fun v =>
      if v.id = u2 then { v with balance := v.balance + x } else v) } : DB).users
    = db.users.map (fun v => if v.id = u2 then { v with balance := v.balance + x } else v) from rfl]
  rw [find?_map_of_preserve _ _ _ (by intro a; by_cases h : a.id = u2 <;> simp [h])]
  cases hfind : db.users.find? (fun v => v.id = u) with
  | none => by_cases h2 : u2 = u <;> simp [h2]
  | some a =>
    have ha : a.id = u := by have := List.find?_some hfind; simpa using this
    by_cases h2 : u2 = u
    · subst h2; simp [ha]
    · have : ¬ a.id = u2 := by rw [ha]; exact fun hc => h2 hc.symm
      simp [this, h2]

theorem getBalance_decrementUserBalance (db : DB) (u2 : String) (x : ℚ) (u : String) :
    getBalance (decrementUserBalance db u2 x) u
      = if u2 = u then (getBalance db u).map (fun v => v - x) else getBalance db u := by
  unfold getBalance findUser decrementUserBalance
  rw [show ({ db with users := db.users.map (fun v =>
      if v.id = u2 then { v with balance := v.balance - x } else v) } : DB).users
    = db.users.map (fun v => if v.id = u2 then { v with balance := v.balance - x } else v) from rfl]
  rw [find?_map_of_preserve _ _ _ (by intro a; by_cases h : a.id = u2 <;> simp [h])]
  cases hfind : db.users.find? (fun v => v.id = u) with
  | none => by_cases h2 : u2 = u <;> simp [h2]
  | some a =>
    have ha : a.id = u := by have := List.find?_some hfind; simpa using this
    by_cases h2 : u2 = u
    · subst h2; simp [ha]
    · have : ¬ a.id = u2 := by rw [ha]; exact fun hc => h2 hc.symm
      simp [this, h2]

theorem getBetStatus_setBetStatus (db : DB) (j : ℕ) (st : BetStatus) (i : ℕ) :
    getBetStatus (setBetStatus db j st) i
      = if j = i then (getBetStatus db i).map (fun _ => st) else getBetStatus db i := by
  unfold getBetStatus setBetStatus
  rw [show ({ db with bets := db.bets.map (fun b =>
      if b.id = j then { b with status := st } else b) } : DB).bets
    = db.bets.map (fun b => if b.id = j then { b with status := st } else b) from rfl]
  rw [find?_map_of_preserve _ _ _ (by intro a; by_cases h : a.id = j <;> simp [h])]
  cases hfind : db.bets.find? (fun b => b.id = i) with
  | none => by_cases h2 : j = i <;> simp [h2]
  | some a =>
    have ha : a.id = i := by have := List.find?_some hfind; simpa using this
    by_cases h2 : j = i
    · subst h2; simp [ha]
    · have : ¬ a.id = j := by rw [ha]; exact fun hc => h2 hc.symm
      simp [this, h2]

theorem poolVolume_decrementPoolVolume (db : DB) (b2 c2 : String) (x : ℚ) (b c : String) :
    poolVolume (decrementPoolVolume db b2 c2 x) b c
      = if b2 = b ∧ c2 = c then (poolVolume db b c).map (fun v => v - x)
        else poolVolume db b c := by
  unfold poolVolume findPool decrementPoolVolume
  rw [show ({ db with pools := db.pools.map (fun p =>
      if p.battleId = b2 ∧ p.characterId = c2
      then { p with totalVolume := p.totalVolume - x } else p) } : DB).pools
    = db.pools.map (fun p => if p.battleId = b2 ∧ p.characterId = c2
      then { p with totalVolume := p.totalVolume - x } else p) from rfl]
  rw [find?_map_of_preserve _ _ _
    (by intro a; by_cases h : a.battleId = b2 ∧ a.characterId = c2 <;> simp [h])]
  cases hfind : db.pools.find? (fun p => p.battleId = b ∧ p.characterId = c) with
  | none => by_cases h2 : b2 = b ∧ c2 = c <;> simp [h2]
  | some a =>
    have ha : a.battleId = b ∧ a.characterId = c := by
      have := List.find?_some hfind; simpa using this
    by_cases h2 : b2 = b ∧ c2 = c
    · obtain ⟨hb2, hc2⟩ := h2
      subst hb2; subst hc2; simp [ha.1, ha.2]
    · have : ¬ (a.battleId = b2 ∧ a.characterId = c2) := by
        intro hc
        exact h2 ⟨by rw [← ha.1, hc.1], by rw [← ha.2, hc.2]⟩
      simp [this, h2]

/-! Cross-field invariance: operations on one table do not affect
observations of another. -/

theorem getBalance_setBetStatus (db : DB) (j : ℕ) (st : BetStatus) (u : String) :
    getBalance (setBetStatus db j st) u = getBalance db u := rfl

theorem getBalance_decrementPoolVolume (db : DB) (b2 c2 : String) (x : ℚ) (u : String) :
    getBalance (decrementPoolVolume db b2 c2 x) u = getBalance db u := rfl

theorem getBetStatus_incrementUserBalance (db : DB) (u2 : String) (x : ℚ) (i : ℕ) :
    getBetStatus (incrementUserBalance db u2 x) i = getBetStatus db i := rfl

theorem getBetStatus_decrementPoolVolume (db : DB) (b2 c2 : String) (x : ℚ) (i : ℕ) :
    getBetStatus (decrementPoolVolume db b2 c2 x) i = getBetStatus db i := rfl

theorem poolVolume_incrementUserBalance (db : DB) (u2 : String) (x : ℚ) (b c : String) :
    poolVolume (incrementUserBalance db u2 x) b c = poolVolume db b c := rfl

theorem poolVolume_setBetStatus (db : DB) (j : ℕ) (st : BetStatus) (b c : String) :
    poolVolume (setBetStatus db j st) b c = poolVolume db b c := rfl

/-! Effect of each settlement loop body on the three observations. -/

namespace MvpBettingManager

theorem getBalance_refundPendingBet (fImm : ℚ) (bid : String) (d : DB) (bet : Bet) (u : String) :
    getBalance (refundPendingBet fImm bid d bet) u
      = if bet.userId = u
        then (getBalance d u).map (fun v => v + (bet.amount - bet.amount * fImm))
        else getBalance d u := by
  unfold refundPendingBet
  rw [getBalance_setBetStatus, getBalance_decrementPoolVolume, getBalance_incrementUserBalance]

theorem getBalance_payWinnerShare (tw tl : ℚ) (d : DB) (bet : Bet) (u : String) :
    getBalance (payWinnerShare tw tl d bet) u
      = if bet.userId = u
        then (getBalance d u).map (fun v => v + (bet.amount + trunc18 (bet.amount / tw) * tl))
        else getBalance d u := by
  unfold payWinnerShare
  rw [getBalance_setBetStatus, getBalance_incrementUserBalance]

theorem getBalance_refundWinnerStake (d : DB) (bet : Bet) (u : String) :
    getBalance (refundWinnerStake d bet) u
      = if bet.userId = u then (getBalance d u).map (fun v => v + bet.amount)
        else getBalance d u := by
  unfold refundWinnerStake
  rw [getBalance_setBetStatus, getBalance_incrementUserBalance]

theorem getBalance_markBetLost (d : DB) (bet : Bet) (u : String) :
    getBalance (markBetLost d bet) u = getBalance d u := rfl

theorem getBetStatus_refundPendingBet (fImm : ℚ) (bid : String) (d : DB) (bet : Bet) (i : ℕ) :
    getBetStatus (refundPendingBet fImm bid d bet) i
      = if bet.id = i then (getBetStatus d i).map (fun _ => BetStatus.CANCELLED)
        else getBetStatus d i := by
  unfold refundPendingBet
  rw [getBetStatus_setBetStatus, getBetStatus_decrementPoolVolume, getBetStatus_incrementUserBalance]

theorem getBetStatus_payWinnerShare (tw tl : ℚ) (d : DB) (bet : Bet) (i : ℕ) :
    getBetStatus (payWinnerShare tw tl d bet) i
      = if bet.id = i then (getBetStatus d i).map (fun _ => BetStatus.WON)
        else getBetStatus d i := by
  unfold payWinnerShare
  rw [getBetStatus_setBetStatus, getBetStatus_incrementUserBalance]

theorem getBetStatus_refundWinnerStake (d : DB) (bet : Bet) (i : ℕ) :
    getBetStatus (refundWinnerStake d bet) i
      = if bet.id = i then (getBetStatus d i).map (fun _ => BetStatus.WON)
        else getBetStatus d i := by
  unfold refundWinnerStake
  rw [getBetStatus_setBetStatus, getBetStatus_incrementUserBalance]

theorem getBetStatus_markBetLost (d : DB) (bet : Bet) (i : ℕ) :
    getBetStatus (markBetLost d bet) i
      = if bet.id = i then (getBetStatus d i).map (fun _ => BetStatus.LOST)
        else getBetStatus d i := by
  unfold markBetLost
  rw [getBetStatus_setBetStatus]

theorem poolVolume_refundPendingBet (fImm : ℚ) (bid : String) (d : DB) (bet : Bet)
    (b c : String) :
    poolVolume (refundPendingBet fImm bid d bet) b c
      = if bid = b ∧ bet.characterId = c
        then (poolVolume d b c).map (fun v => v - (bet.amount - bet.amount * F_HOUSE))
        else poolVolume d b c := by
  unfold refundPendingBet
  rw [poolVolume_setBetStatus, poolVolume_decrementPoolVolume, poolVolume_incrementUserBalance]

theorem poolVolume_payWinnerShare (tw tl : ℚ) (d : DB) (bet : Bet) (b c : String) :
    poolVolume (payWinnerShare tw tl d bet) b c = poolVolume d b c := rfl

theorem poolVolume_refundWinnerStake (d : DB) (bet : Bet) (b c : String) :
    poolVolume (refundWinnerStake d bet) b c = poolVolume d b c := rfl

theorem poolVolume_markBetLost (d : DB) (bet : Bet) (b c : String) :
    poolVolume (markBetLost d bet) b c = poolVolume d b c := rfl

end MvpBettingManager

/-! Fold lemmas over the settlement loops. -/

theorem foldl_db_preserve {β : Type} (obs : DB → β) (step : DB → Bet → DB)
    (l : List Bet) (hstep : ∀ d b, b ∈ l → obs (step d b) = obs d) :
    ∀ d, obs (l.foldl step d) = obs d := by
  induction l with
  | nil => intro d; rfl
  | cons x xs ih =>
    intro d
    rw [List.foldl_cons, ih (fun d b hb => hstep d b (List.mem_cons_of_mem x hb)),
      hstep d x (List.mem_cons_self x xs)]

theorem getBalance_foldl_credit (step : DB → Bet → DB) (pay : Bet → ℚ) (u : String)
    (hstep : ∀ d b, getBalance (step d b) u
      = if b.userId = u then (getBalance d u).map (fun v => v + pay b)
        else getBalance d u) :
    ∀ (l : List Bet) (d : DB), getBalance (l.foldl step d) u
      = (getBalance d u).map
          (fun v => v + ((l.filter (fun b => b.userId = u)).map pay).sum) := by
  intro l
  induction l with
  | nil =>
    intro d
    cases h : getBalance d u <;> simp [h]
  | cons x xs ih =>
    intro d
    rw [List.foldl_cons, ih (step d x), hstep]
    by_cases hx : x.userId = u
    · rw [if_pos hx, Option.map_map, List.filter_cons_of_pos (by simp [hx]),
        List.map_cons, List.sum_cons]
      cases getBalance d u <;> simp [Function.comp, add_assoc]
    · rw [if_neg hx, List.filter_cons_of_neg (by simp [hx])]

/-- After a loop whose body sets the status of its own bet to `st`
(and leaves other ids alone), a bet id occurring in the loop list ends
with status `st`, provided a row with that id exists at all. -/
theorem getBetStatus_foldl_sets (step : DB → Bet → DB) (st : BetStatus) (i : ℕ)
    (hstep : ∀ d b, getBetStatus (step d b) i
      = if b.id = i then (getBetStatus d i).map (fun _ => st) else getBetStatus d i) :
    ∀ (l : List Bet) (d : DB), (∃ b ∈ l, b.id = i) → (getBetStatus d i).isSome →
      getBetStatus (l.foldl step d) i = some st := by
  have hkeep : ∀ (l : List Bet) (d : DB), getBetStatus d i = some st →
      getBetStatus (l.foldl step d) i = some st := by
    intro l
    induction l with
    | nil => intro d h; exact h
    | cons x xs ih =>
      intro d h
      rw [List.foldl_cons]
      refine ih (step d x) ?_
      rw [hstep]
      by_cases hx : x.id = i
      · rw [if_pos hx, h]; rfl
      · rw [if_neg hx]; exact h
  have hsome : ∀ (d : DB) (x : Bet), (getBetStatus d i).isSome →
      (getBetStatus (step d x) i).isSome := by
    intro d x h
    rw [hstep]
    by_cases hx : x.id = i
    · rw [if_pos hx]; cases hcase : getBetStatus d i with
      | none => rw [hcase] at h; simp at h
      | some a => rfl
    · rw [if_neg hx]; exact h
  intro l
  induction l with
  | nil => intro d h; simp at h
  | cons x xs ih =>
    intro d hex hs
    rw [List.foldl_cons]
    by_cases hx : x.id = i
    · refine hkeep xs (step d x) ?_
      rw [hstep, if_pos hx]
      cases hcase : getBetStatus d i with
      | none => rw [hcase] at hs; simp at hs
      | some a => rfl
    · obtain ⟨b, hb, hbi⟩ := hex
      rcases List.mem_cons.mp hb with hbx | hbxs
      · exact absurd (hbx ▸ hbi) hx
      · exact ih (step d x) ⟨b, hbxs, hbi⟩ (hsome d x hs)

/-! Derived observations naming the lists that
MvpBettingManager.settleBattle computes internally (the battle's
pending, active, winning and losing bets and the settlement totals),
so that the settlement theorems can speak about them. -/

def pendingBetsOf (db : DB) (battleId : String) : List Bet :=
  (db.bets.filter (fun b => b.battleId = battleId)).filter
    (fun b => b.status = .PENDING_LIQUIDITY)

def winningBetsOf (db : DB) (battleId winningCharacterId : String) : List Bet :=
  ((db.bets.filter (fun b => b.battleId = battleId)).filter
    (fun b => b.status = .PENDING)).filter
      (fun b => b.characterId = winningCharacterId)

def losingBetsOf (db : DB) (battleId winningCharacterId : String) : List Bet :=
  ((db.bets.filter (fun b => b.battleId = battleId)).filter
    (fun b => b.status = .PENDING)).filter
      (fun b => b.characterId ≠ winningCharacterId)

def totalWageredOf (db : DB) (battleId winningCharacterId : String) : ℚ :=
  ((winningBetsOf db battleId winningCharacterId).map Bet.amount).foldl
    (fun a b => a + b) 0

def totalLosingPoolOf (db : DB) (battleId winningCharacterId : String) : ℚ :=
  (((db.pools.filter (fun p => p.battleId = battleId)).filter
    (fun p => p.characterId ≠ winningCharacterId)).map BettingPool.totalVolume).foldl
      (fun a b => a + b) 0

theorem getBalance_update_battles (d : DB) (bs : List Battle) (u : String) :
    getBalance { d with battles := bs } u = getBalance d u := rfl

theorem poolVolume_update_battles (d : DB) (bs : List Battle) (b c : String) :
    poolVolume { d with battles := bs } b c = poolVolume d b c := rfl

theorem getBetStatus_update_battles (d : DB) (bs : List Battle) (i : ℕ) :
    getBetStatus { d with battles := bs } i = getBetStatus d i := rfl

/-! Shape lemmas for the two placeBet operations: which results are
reachable once the lookups and the lock-window check have been fixed. -/

theorem getOdds_error_cases (db : DB) (bid : String) (e : BetError)
    (h : BettingManager.getOdds db bid = .error e) :
    e = .notFound "Battle not found" ∨ e = .teamBattleParticipants := by
  unfold BettingManager.getOdds at h
  split at h
  · exact Or.inl (by injection h with h2; exact h2.symm)
  · split at h
    · split at h
      · exact absurd h (by simp)
      · exact Or.inr (by injection h with h2; exact h2.symm)
    · exact absurd h (by simp)

theorem amm_placeBet_result_cases
    (now : ℤ) (uid bid cid : String) (amt : ℚ) (db : DB) (battle : Battle) (user : User)
    (hb : findBattle db bid = some battle) (hu : findUser db uid = some user)
    (ht : ¬ now ≥ battle.startTime - 2 * 60 * 1000) :
    (battle.status ≠ .ACTIVE
      ∧ BettingManager.placeBet now uid bid cid amt db = .error .bettingNotActive)
    ∨ (battle.status = .ACTIVE
      ∧ (BettingManager.placeBet now uid bid cid amt db = .error .notAParticipant
        ∨ BettingManager.placeBet now uid bid cid amt db = .error .insufficientBalance
        ∨ BettingManager.placeBet now uid bid cid amt db = .error (.notFound "Battle not found")
        ∨ BettingManager.placeBet now uid bid cid amt db = .error .teamBattleParticipants
        ∨ BettingManager.placeBet now uid bid cid amt db = .error .oddsUnavailable
        ∨ BettingManager.placeBet now uid bid cid amt db = .error .liquidityConstraint
        ∨ ∃ r, BettingManager.placeBet now uid bid cid amt db = .ok r)) := by
  unfold BettingManager.placeBet
  simp only [hb, hu, if_neg ht]
  by_cases hs : battle.status = .ACTIVE
  · refine Or.inr ⟨hs, ?_⟩
    rw [if_neg (show ¬ (battle.status ≠ BattleStatus.ACTIVE) from fun hcon => hcon hs)]
    split
    · simp
    · split
      · simp
      · split
        · rename_i e heq
          rcases getOdds_error_cases db bid e heq with he | he <;> subst he <;> simp
        · split
          · simp
          · split
            · simp
            · refine Or.inr (Or.inr (Or.inr (Or.inr (Or.inr (Or.inr ⟨_, rfl⟩)))))
  · refine Or.inl ⟨hs, ?_⟩
    rw [if_pos (show battle.status ≠ BattleStatus.ACTIVE from hs)]

theorem mvp_placeBet_result_cases
    (now : ℤ) (uid bid cid : String) (amt : ℚ) (db : DB) (battle : Battle) (user : User)
    (hu : findUser db uid = some user) (hb : findBattle db bid = some battle)
    (ht : ¬ now ≥ battle.startTime - 2 * 60 * 1000) :
    MvpBettingManager.placeBet now uid bid cid amt db = .error .insufficientBalance
    ∨ MvpBettingManager.placeBet now uid bid cid amt db
        = .error (.notFound "Opposing character not found")
    ∨ MvpBettingManager.placeBet now uid bid cid amt db = .error .betCapExceeded
    ∨ ∃ r, MvpBettingManager.placeBet now uid bid cid amt db = .ok r := by
  unfold MvpBettingManager.placeBet
  simp only [hu, hb, if_neg ht]
  split
  · simp
  · split
    · simp
    · split
      · refine Or.inr (Or.inr (Or.inr ⟨_, rfl⟩))
      · split
        · simp
        · refine Or.inr (Or.inr (Or.inr ⟨_, rfl⟩))

/-! Claim theorems. -/

/-- C10: in BettingManager.isBetValid the total-volume accumulator is
never updated (each BigNumber.plus result is discarded), so for every
battle, pool map, finite stake amount a and finite odds o the decision
equals a * o - a ≤ BOOTSTRAP_LIQUIDITY * SAFETY_BUFFER = 90,
independent of the pool volumes. -/
theorem c10_isBetValid_ignores_pools (battle : Battle) (characterId : String)
    (a o : ℚ) (pools : List (String × BN)) :
    BettingManager.isBetValid battle characterId (BN.num a) (BN.num o) pools
      = decide (a * o - a ≤ 90) := by
  norm_num [BettingManager.isBetValid, BN.times_num_num, BN.minus_num_num,
    BN.isZero_num, BN.le_num_num, BOOTSTRAP_LIQUIDITY, SAFETY_BUFFER, decide_eq_decide]

/-- C1: evidence for the liquidity-validator code bug.  On a two-sided
battle with 1000 on each side, a bet of 200 at odds 2 requires 200 of
liquidity, well within the specified bound of
opposingVolume * SAFETY_BUFFER = 900 (the spec-modelled validator
accepts it), yet BettingManager.isBetValid rejects it because its
broken accumulator leaves totalVolume at 0 and the bootstrap constant
100 is used in place of the real opposing volume. -/
theorem c1_isBetValid_rejects_within_spec_bound :
    BettingManager.isBetValid
        { id := "b1", type := .TEAM_BATTLE, startTime := 0, status := .ACTIVE,
          participants := ["A", "B"], winnerId := none }
        "A" (BN.num 200) (BN.num 2) [("A", BN.num 1000), ("B", BN.num 1000)] = false
    ∧ isBetValidSpec
        { id := "b1", type := .TEAM_BATTLE, startTime := 0, status := .ACTIVE,
          participants := ["A", "B"], winnerId := none }
        "A" 200 2 [("A", 1000), ("B", 1000)] = true := by
  constructor
  · norm_num [BettingManager.isBetValid, BN.times_num_num, BN.minus_num_num,
      BN.isZero_num, BN.le_num_num, BOOTSTRAP_LIQUIDITY, SAFETY_BUFFER]
  · simp [isBetValidSpec, List.find?]
    norm_num [SAFETY_BUFFER]

/-- C3: evidence for the cold-start code bug.  The current
calculateTeamBattleOdds (the odds_a / odds_b version used by
BettingManager.getOdds) has no cold-start branch, so at
vA = vB = 0 it computes p_a = (0 + 0) / (0 + 0 + 0), a 0/0 division
yielding NaN, and both returned odds are NaN; the earlier odds1 /
odds2 version in the same file returns the clamped cold-start value
trunc18(1 / (0.5 * (1 - F_HOUSE))) = 2115282919090428344 / 10^18
(about 2.115), which lies within [MIN_ODDS, MAX_ODDS_TEAM_BATTLE]. -/
theorem c3_cold_start_division_by_zero :
    (MarketMakingEngine.calculateTeamBattleOdds (BN.num 0) (BN.num 0)).odds_a = BN.nan
    ∧ (MarketMakingEngine.calculateTeamBattleOdds (BN.num 0) (BN.num 0)).odds_b = BN.nan
    ∧ (MarketMakingEngine.calculateTeamBattleOddsLegacy (BN.num 0) (BN.num 0)).odds1
        = BN.num (2115282919090428344 / 10 ^ 18)
    ∧ (MarketMakingEngine.calculateTeamBattleOddsLegacy (BN.num 0) (BN.num 0)).odds2
        = BN.num (2115282919090428344 / 10 ^ 18)
    ∧ MIN_ODDS ≤ (2115282919090428344 : ℚ) / 10 ^ 18
    ∧ (2115282919090428344 : ℚ) / 10 ^ 18 ≤ MAX_ODDS_TEAM_BATTLE := by
  refine ⟨?_, ?_, ?_, ?_, by norm_num [MIN_ODDS], by norm_num [MAX_ODDS_TEAM_BATTLE]⟩ <;>
    norm_num [MarketMakingEngine.calculateTeamBattleOdds,
      MarketMakingEngine.calculateTeamBattleOddsLegacy,
      BN.plus, BN.div, BN.times, BN.minus, BN.bmin, BN.bmax, BN.isZero,
      trunc18, truncz, F_HOUSE, F_PLATFORM, F_PLAYER,
      MAX_ODDS_TEAM_BATTLE, MIN_ODDS, SAFETY_BUFFER]

/-- C8 counterexample: the two-sided odds are not monotone in the own
side's volume.  With vB = 30 fixed, raising vA from 1 to 2 strictly
raises the computed odds for side A (both inputs are nonnegative and
not both zero), contradicting the claim that increasing vA never
increases odds for side A. -/
theorem c8_counterexample_monotonicity_fails :
    (0:ℚ) ≤ 1 ∧ (0:ℚ) ≤ 30 ∧ ¬((1:ℚ) = 0 ∧ (30:ℚ) = 0) ∧ (1:ℚ) < 2
    ∧ ((MarketMakingEngine.calculateTeamBattleOdds (BN.num 1) (BN.num 30)).odds_a).lt
        ((MarketMakingEngine.calculateTeamBattleOdds (BN.num 2) (BN.num 30)).odds_a)
        = true := by
  refine ⟨by norm_num, by norm_num, by norm_num, by norm_num, ?_⟩
  norm_num [MarketMakingEngine.calculateTeamBattleOdds,
    BN.plus, BN.div, BN.times, BN.minus, BN.bmin, BN.bmax, BN.isZero, BN.lt,
    trunc18, truncz, F_HOUSE, F_PLATFORM, F_PLAYER,
    MAX_ODDS_TEAM_BATTLE, MIN_ODDS, SAFETY_BUFFER]

/-- C8 amended: monotonicity of side A's odds in vA does not hold in
general (see the counterexample), but it does hold on the vB = 0 axis,
where the odds for side A are constantly MIN_ODDS for every vA > 0:
the liquidity-safety cap is vB * SAFETY_BUFFER / (vA * (1 - F_HOUSE))
= 0, so the clamp to [MIN_ODDS, MAX_ODDS_TEAM_BATTLE] always yields
MIN_ODDS. -/
theorem c8_amended_odds_constant_on_empty_opposing (vA : ℚ) (h : 0 < vA) :
    (MarketMakingEngine.calculateTeamBattleOdds (BN.num vA) (BN.num 0)).odds_a
      = BN.num MIN_ODDS := by
  have hFH : (1:ℚ) - F_HOUSE = 1891/2000 := by
    norm_num [F_HOUSE, F_PLATFORM, F_PLAYER]
  have h20 : ¬ (20:ℚ) = 0 := by norm_num
  have hsq : 0 ≤ trunc18 ((vA + 0) / 20) := trunc18_nonneg (by positivity)
  set sq := trunc18 ((vA + 0) / 20) with hsq_def
  have hden_pos : 0 < (vA + 0) + sq * 2 := by linarith
  have harg0 : 0 ≤ (0 + sq) / ((vA + 0) + sq * 2) := div_nonneg (by linarith) hden_pos.le
  have hpq0 : 0 ≤ trunc18 ((0 + sq) / ((vA + 0) + sq * 2)) := trunc18_nonneg harg0
  set pq := trunc18 ((0 + sq) / ((vA + 0) + sq * 2)) with hpq_def
  have hpqlt : pq < 1/2 := by
    refine lt_of_le_of_lt (trunc18_le harg0) ?_
    rw [div_lt_iff₀ hden_pos]
    linarith
  have hpadj : 0 ≤ pq * (1 - sq) + 0.5 * sq := by nlinarith
  have hvA0 : ¬ vA = 0 := h.ne.symm
  have hvden : ¬ vA * (1 - F_HOUSE) = 0 := by
    rw [hFH]; positivity
  simp only [MarketMakingEngine.calculateTeamBattleOdds, BN.plus_num_num]
  rw [BN.div_num_num _ _ h20, ← hsq_def]
  simp only [BN.plus_num_num, BN.times_num_num]
  rw [BN.div_num_num _ _ hden_pos.ne.symm, ← hpq_def]
  simp only [BN.isZero_num, BN.minus_num_num, BN.times_num_num, BN.plus_num_num,
    decide_eq_true_eq, hvA0, if_false, if_neg]
  rw [BN.div_num_num _ _ hvden]
  rcases eq_or_lt_of_le hpadj with hz | hpos
  · rw [show pq * (1 - sq) + 0.5 * sq = 0 from hz.symm, zero_mul,
      BN.div_num_zero_pos 1 (by norm_num)]
    norm_num [BN.bmin, BN.bmax, MIN_ODDS, MAX_ODDS_TEAM_BATTLE, trunc18_zero]
  · have hpf : 0 < (pq * (1 - sq) + 0.5 * sq) * (1 - F_HOUSE) := by
      rw [hFH]; positivity
    rw [BN.div_num_num _ _ (by exact_mod_cast hpf.ne.symm)]
    have hm0 : 0 ≤ trunc18 (1 / ((pq * (1 - sq) + 0.5 * sq) * (1 - F_HOUSE))) :=
      trunc18_nonneg (by positivity)
    rw [BN.bmin_num_num]
    have : min (trunc18 (1 / ((pq * (1 - sq) + 0.5 * sq) * (1 - F_HOUSE))))
        (trunc18 (0 * SAFETY_BUFFER / (vA * (1 - F_HOUSE)))) = 0 := by
      rw [zero_mul, zero_div, trunc18_zero]
      exact min_eq_right hm0
    rw [this, BN.bmax_num_num, BN.bmin_num_num]
    norm_num [MIN_ODDS, MAX_ODDS_TEAM_BATTLE]

/-- C4 counterexample: a bet on a Pending market strictly more than
2 minutes before start is rejected on status grounds by the AMM
placeBet (error "Betting is not active for this battle"), although the
claim says status Pending is in the open set and such a bet is not
rejected on status grounds. -/
theorem c4_counterexample_pending_market_rejected :
    BettingManager.placeBet 0 "X" "b1" "A" 10
        { users := [{ id := "X", balance := 1000 }],
          battles := [{ id := "b1", type := .TEAM_BATTLE, startTime := 1000000,
                        status := .PENDING, participants := ["A", "B"], winnerId := none }],
          bets := [], pools := [], nextBetId := 0 }
      = .error .bettingNotActive
    ∧ ¬ ((0:ℤ) ≥ 1000000 - 2 * 60 * 1000) := by
  constructor
  · simp [BettingManager.placeBet, findBattle, findUser, List.find?]
  · norm_num

/-- C4 amended: given that the battle and the user exist, the AMM
placeBet rejects with the betting-closed error exactly when
now ≥ startTime - 2 minutes, and (when the lock window passes) with
the betting-not-active error exactly when the status is not ACTIVE —
so Pending markets are rejected on status grounds too; the parimutuel
placeBet applies only the lock-window check and never checks the
status, so Finished or Cancelled markets with a far-enough start time
are not rejected on market-state grounds at all. -/
theorem c4_amended_market_closed_rules
    (now : ℤ) (uid bid cid : String) (amt : ℚ) (db : DB) (battle : Battle) (user : User)
    (hb : findBattle db bid = some battle) (hu : findUser db uid = some user) :
    (BettingManager.placeBet now uid bid cid amt db = .error .bettingClosed
      ↔ now ≥ battle.startTime - 2 * 60 * 1000)
    ∧ (¬ now ≥ battle.startTime - 2 * 60 * 1000 →
        (BettingManager.placeBet now uid bid cid amt db = .error .bettingNotActive
          ↔ battle.status ≠ .ACTIVE))
    ∧ (MvpBettingManager.placeBet now uid bid cid amt db = .error .bettingClosed
      ↔ now ≥ battle.startTime - 2 * 60 * 1000) := by
  refine ⟨⟨?_, ?_⟩, ?_, ?_, ?_⟩
  · intro hres
    by_contra ht
    rcases amm_placeBet_result_cases now uid bid cid amt db battle user hb hu ht with
      ⟨_, hr⟩ | ⟨_, hr|hr|hr|hr|hr|hr|⟨r, hr⟩⟩ <;> rw [hres] at hr <;> simp at hr
  · intro ht
    unfold BettingManager.placeBet
    simp only [hb]
    split
    · rfl
    · rename_i hcon; exact absurd ht hcon
  · intro ht
    constructor
    · intro hres
      intro hsa
      rcases amm_placeBet_result_cases now uid bid cid amt db battle user hb hu ht with
        ⟨hneq, _⟩ | ⟨_, hr|hr|hr|hr|hr|hr|⟨r, hr⟩⟩
      · exact hneq hsa
      all_goals rw [hres] at hr; simp at hr
    · intro hneq
      unfold BettingManager.placeBet
      simp only [hb, hu, if_neg ht]
      rw [if_pos hneq]
  · intro hres
    by_contra ht
    rcases mvp_placeBet_result_cases now uid bid cid amt db battle user hu hb ht with
      hr|hr|hr|⟨r, hr⟩ <;> rw [hres] at hr <;> simp at hr
  · intro ht
    unfold MvpBettingManager.placeBet
    simp only [hu, hb]
    split
    · rfl
    · rename_i hcon; exact absurd ht hcon

/-- C4 amended, witness: on a Pending market 1000 seconds before start
with an existing user, the AMM placeBet rejects with the
betting-not-active error, and neither manager reports the
betting-closed error. -/
theorem c4_amended_witness :
    BettingManager.placeBet 0 "X" "b1" "A" 10
        { users := [{ id := "X", balance := 1000 }],
          battles := [{ id := "b1", type := .TEAM_BATTLE, startTime := 1000000,
                        status := .PENDING, participants := ["A", "B"], winnerId := none }],
          bets := [], pools := [], nextBetId := 0 }
      = .error .bettingNotActive
    ∧ ¬ (BettingManager.placeBet 0 "X" "b1" "A" 10
        { users := [{ id := "X", balance := 1000 }],
          battles := [{ id := "b1", type := .TEAM_BATTLE, startTime := 1000000,
                        status := .PENDING, participants := ["A", "B"], winnerId := none }],
          bets := [], pools := [], nextBetId := 0 }
      = .error .bettingClosed)
    ∧ ¬ (MvpBettingManager.placeBet 0 "X" "b1" "A" 10
        { users := [{ id := "X", balance := 1000 }],
          battles := [{ id := "b1", type := .TEAM_BATTLE, startTime := 1000000,
                        status := .PENDING, participants := ["A", "B"], winnerId := none }],
          bets := [], pools := [], nextBetId := 0 }
      = .error .bettingClosed) := by
  have h := c4_amended_market_closed_rules 0 "X" "b1" "A" 10
    { users := [{ id := "X", balance := 1000 }],
      battles := [{ id := "b1", type := .TEAM_BATTLE, startTime := 1000000,
                    status := .PENDING, participants := ["A", "B"], winnerId := none }],
      bets := [], pools := [], nextBetId := 0 }
    { id := "b1", type := .TEAM_BATTLE, startTime := 1000000,
      status := .PENDING, participants := ["A", "B"], winnerId := none }
    { id := "X", balance := 1000 }
    (by simp [findBattle]) (by simp [findUser])
  have htime : ¬ ((0:ℤ) ≥ 1000000 - 2 * 60 * 1000) := by norm_num
  exact ⟨(h.2.1 htime).mpr (by simp), fun hc => htime (h.1.mp hc),
    fun hc => htime (h.2.2.mp hc)⟩

/-- C9 counterexample: the parimutuel placeBet accepts a bet naming a
character that is not a participant of the market (here "C" in a
market with participants A and B): the bet row is created with status
PENDING and no NotFound error is raised. -/
theorem c9_counterexample_nonparticipant_accepted :
    (MvpBettingManager.placeBet 0 "X" "b1" "C" 10
        { users := [{ id := "X", balance := 1000 }],
          battles := [{ id := "b1", type := .TEAM_BATTLE, startTime := 1000000,
                        status := .ACTIVE, participants := ["A", "B"], winnerId := none }],
          bets := [], pools := [{ battleId := "b1", characterId := "A", totalVolume := 50 }],
          nextBetId := 0 }).map (fun r => (r.snd.characterId, r.snd.status))
      = .ok ("C", .PENDING)
    ∧ ((["A", "B"] : List String).any (fun p => p = "C")) = false := by
  constructor
  · simp [MvpBettingManager.placeBet, findUser, findBattle, findPool, List.find?,
      decrementUserBalance, createBet, upsertPoolIncrement, Except.map,
      show (0:ℚ) < 50 from by norm_num, show ¬ ((1000:ℚ) < 10) from by norm_num]
  · simp

/-- C9 amended: the AMM placeBet (once the lookups, lock window and
ACTIVE status are in place) rejects a character outside the
participant set with the not-a-participant error, and an error result
writes nothing; the parimutuel placeBet has no membership check — it
fails with the NotFound "Opposing character not found" error exactly
when every participant id equals the named character id, and
otherwise proceeds even for characters outside the market. -/
theorem c9_amended_participant_check
    (now : ℤ) (uid bid cid : String) (amt : ℚ) (db : DB) (battle : Battle) (user : User)
    (hb : findBattle db bid = some battle) (hu : findUser db uid = some user)
    (ht : ¬ now ≥ battle.startTime - 2 * 60 * 1000) :
    (battle.status = .ACTIVE → battle.participants.any (fun p => p = cid) = false →
      BettingManager.placeBet now uid bid cid amt db = .error .notAParticipant)
    ∧ (¬ user.balance < amt →
        (MvpBettingManager.placeBet now uid bid cid amt db
            = .error (.notFound "Opposing character not found")
          ↔ battle.participants.find? (fun p => p ≠ cid) = none)) := by
  constructor
  · intro hs hnp
    unfold BettingManager.placeBet
    simp only [hb, hu, if_neg ht]
    rw [if_neg (show ¬ (battle.status ≠ BattleStatus.ACTIVE) from fun hcon => hcon hs),
      if_pos (by simp [hnp])]
  · intro hbal
    constructor
    · intro hres
      cases hfind : battle.participants.find? (fun p => p ≠ cid) with
      | none => rfl
      | some opp =>
        exfalso
        unfold MvpBettingManager.placeBet at hres
        simp only [hu, hb, if_neg ht, if_neg hbal, hfind] at hres
        split at hres
        · simp at hres
        · split at hres <;> simp at hres
    · intro hfind
      unfold MvpBettingManager.placeBet
      simp only [hu, hb, if_neg ht, if_neg hbal, hfind]

/-- C9 amended, witness: with "C" outside the participant set of an
ACTIVE two-sided market, the AMM placeBet rejects with the
not-a-participant error while the parimutuel placeBet does not raise
its opposing-character NotFound error. -/
theorem c9_amended_witness :
    BettingManager.placeBet 0 "X" "b1" "C" 10
        { users := [{ id := "X", balance := 1000 }],
          battles := [{ id := "b1", type := .TEAM_BATTLE, startTime := 1000000,
                        status := .ACTIVE, participants := ["A", "B"], winnerId := none }],
          bets := [], pools := [{ battleId := "b1", characterId := "A", totalVolume := 50 }],
          nextBetId := 0 }
      = .error .notAParticipant
    ∧ ¬ (MvpBettingManager.placeBet 0 "X" "b1" "C" 10
        { users := [{ id := "X", balance := 1000 }],
          battles := [{ id := "b1", type := .TEAM_BATTLE, startTime := 1000000,
                        status := .ACTIVE, participants := ["A", "B"], winnerId := none }],
          bets := [], pools := [{ battleId := "b1", characterId := "A", totalVolume := 50 }],
          nextBetId := 0 }
      = .error (.notFound "Opposing character not found")) := by
  have h := c9_amended_participant_check 0 "X" "b1" "C" 10
    { users := [{ id := "X", balance := 1000 }],
      battles := [{ id := "b1", type := .TEAM_BATTLE, startTime := 1000000,
                    status := .ACTIVE, participants := ["A", "B"], winnerId := none }],
      bets := [], pools := [{ battleId := "b1", characterId := "A", totalVolume := 50 }],
      nextBetId := 0 }
    { id := "b1", type := .TEAM_BATTLE, startTime := 1000000,
      status := .ACTIVE, participants := ["A", "B"], winnerId := none }
    { id := "X", balance := 1000 }
    (by simp [findBattle]) (by simp [findUser]) (by norm_num)
  refine ⟨h.1 rfl (by simp), fun hc => ?_⟩
  have h2 := (h.2 (by norm_num)).mp hc
  simp at h2

/-- C8 amended, witness at vA = 3. -/
theorem c8_amended_witness :
    (0:ℚ) < 3
    ∧ (MarketMakingEngine.calculateTeamBattleOdds (BN.num 3) (BN.num 0)).odds_a
        = BN.num MIN_ODDS :=
  ⟨by norm_num, c8_amended_odds_constant_on_empty_opposing 3 (by norm_num)⟩

/-- A successful settlement only rewrites the battles table at the very
end: the result's battles list is the input's with the settled battle
marked FINISHED and the winner recorded. -/
theorem settleBattle_ok_battles (fImm : ℚ) (bid w : String) (db : DB) (battle : Battle)
    (hfind : findBattle db bid = some battle) (hact : battle.status = .ACTIVE) :
    ∃ db2, MvpBettingManager.settleBattle fImm bid w db = .ok db2
      ∧ db2.battles = db.battles.map (fun b =>
          if b.id = bid then { b with status := .FINISHED, winnerId := some w } else b) := by
  have hpend : ∀ (l : List Bet) (d : DB),
      (l.foldl (MvpBettingManager.refundPendingBet fImm bid) d).battles = d.battles :=
    fun l d => foldl_db_preserve DB.battles
      (MvpBettingManager.refundPendingBet fImm bid) l (fun _ _ _ => rfl) d
  have hpay : ∀ (tw tl : ℚ) (l : List Bet) (d : DB),
      (l.foldl (MvpBettingManager.payWinnerShare tw tl) d).battles = d.battles :=
    fun tw tl l d => foldl_db_preserve DB.battles
      (MvpBettingManager.payWinnerShare tw tl) l (fun _ _ _ => rfl) d
  have href : ∀ (l : List Bet) (d : DB),
      (l.foldl MvpBettingManager.refundWinnerStake d).battles = d.battles :=
    fun l d => foldl_db_preserve DB.battles
      MvpBettingManager.refundWinnerStake l (fun _ _ _ => rfl) d
  have hlost : ∀ (l : List Bet) (d : DB),
      (l.foldl MvpBettingManager.markBetLost d).battles = d.battles :=
    fun l d => foldl_db_preserve DB.battles
      MvpBettingManager.markBetLost l (fun _ _ _ => rfl) d
  unfold MvpBettingManager.settleBattle
  simp only [hfind]
  rw [if_neg (show ¬ battle.status ≠ BattleStatus.ACTIVE from fun hc => hc hact)]
  refine ⟨_, rfl, ?_⟩
  simp only [hlost]
  split
  · split
    · simp only [hpay, hpend]
    · simp only [hpend]
  · split
    · simp only [href, hpend]
    · simp only [hpend]

/-- Looking up the settled battle after the final battles-table update
yields the battle marked FINISHED with the winner recorded. -/
theorem findBattle_after_finish (d : DB) (bid w : String) (battle : Battle)
    (h : findBattle d bid = some battle) :
    (d.battles.map (fun b =>
        if b.id = bid then { b with status := .FINISHED, winnerId := some w } else b)).find?
        (fun b => b.id = bid)
      = some { battle with status := .FINISHED, winnerId := some w } := by
  unfold findBattle at h
  rw [find?_map_of_preserve _ _ _
    (fun a => by by_cases hc : a.id = bid <;> simp [hc]), h]
  have hid : battle.id = bid := by simpa using List.find?_some h
  simp [hid]

/-- C5: settleBattle fails with InvalidState (and, the transaction
aborting, changes no state) whenever the market's status is not
ACTIVE; a successful settlement marks the battle FINISHED with the
winner recorded, so a second settleBattle call on the resulting state
is always rejected with InvalidState and no balance is credited
twice. -/
theorem c5_settle_idempotence_guard (fImm : ℚ) (db : DB) (bid w : String) (battle : Battle)
    (hfind : findBattle db bid = some battle) :
    (battle.status ≠ .ACTIVE →
      MvpBettingManager.settleBattle fImm bid w db = .error .invalidState)
    ∧ (∀ db2, MvpBettingManager.settleBattle fImm bid w db = .ok db2 →
        findBattle db2 bid = some { battle with status := .FINISHED, winnerId := some w }
        ∧ ∀ fImm2 w2, MvpBettingManager.settleBattle fImm2 bid w2 db2
            = .error .invalidState) := by
  constructor
  · intro hna
    unfold MvpBettingManager.settleBattle
    simp only [hfind]
    rw [if_pos hna]
  · intro db2 hok
    have hact : battle.status = .ACTIVE := by
      by_contra hna
      rw [show MvpBettingManager.settleBattle fImm bid w db = .error .invalidState from by
        unfold MvpBettingManager.settleBattle
        simp only [hfind]
        rw [if_pos hna]] at hok
      simp at hok
    obtain ⟨db2s, hok2, hbat⟩ := settleBattle_ok_battles fImm bid w db battle hfind hact
    have hdb2 : db2 = db2s := by
      have h3 := hok.symm.trans hok2
      injection h3
    subst hdb2
    have hfb2 : findBattle db2 bid
        = some { battle with status := .FINISHED, winnerId := some w } := by
      unfold findBattle
      rw [hbat]
      exact findBattle_after_finish db bid w battle hfind
    refine ⟨hfb2, fun fImm2 w2 => ?_⟩
    unfold MvpBettingManager.settleBattle
    simp only [hfb2]
    rw [if_pos (by simp)]

/-- C5 witness: settling an ACTIVE battle with no bets succeeds and
marks it FINISHED; the second settlement call on the result is
rejected with InvalidState. -/
theorem c5_witness :
    MvpBettingManager.settleBattle 0.02 "b1" "A"
        { users := [{ id := "U", balance := 50 }],
          battles := [{ id := "b1", type := .TEAM_BATTLE, startTime := 0,
                        status := .ACTIVE, participants := ["A", "B"], winnerId := none }],
          bets := [], pools := [], nextBetId := 0 }
      = .ok
        { users := [{ id := "U", balance := 50 }],
          battles := [{ id := "b1", type := .TEAM_BATTLE, startTime := 0,
                        status := .FINISHED, participants := ["A", "B"], winnerId := some "A" }],
          bets := [], pools := [], nextBetId := 0 }
    ∧ MvpBettingManager.settleBattle 0.02 "b1" "B"
        { users := [{ id := "U", balance := 50 }],
          battles := [{ id := "b1", type := .TEAM_BATTLE, startTime := 0,
                        status := .FINISHED, participants := ["A", "B"], winnerId := some "A" }],
          bets := [], pools := [], nextBetId := 0 }
      = .error .invalidState := by
  have heval : MvpBettingManager.settleBattle 0.02 "b1" "A"
      { users := [{ id := "U", balance := 50 }],
        battles := [{ id := "b1", type := .TEAM_BATTLE, startTime := 0,
                      status := .ACTIVE, participants := ["A", "B"], winnerId := none }],
        bets := [], pools := [], nextBetId := 0 }
    = .ok
      { users := [{ id := "U", balance := 50 }],
        battles := [{ id := "b1", type := .TEAM_BATTLE, startTime := 0,
                      status := .FINISHED, participants := ["A", "B"], winnerId := some "A" }],
        bets := [], pools := [], nextBetId := 0 } := by
    simp [MvpBettingManager.settleBattle, findBattle, List.find?]
  have h := c5_settle_idempotence_guard 0.02
    { users := [{ id := "U", balance := 50 }],
      battles := [{ id := "b1", type := .TEAM_BATTLE, startTime := 0,
                    status := .ACTIVE, participants := ["A", "B"], winnerId := none }],
      bets := [], pools := [], nextBetId := 0 }
    "b1" "A"
    { id := "b1", type := .TEAM_BATTLE, startTime := 0,
      status := .ACTIVE, participants := ["A", "B"], winnerId := none }
    (by simp [findBattle, List.find?])
  exact ⟨heval, (h.2 _ heval).2 0.02 "B"⟩

/-- C7: during settleBattle, a bet still in PENDING_LIQUIDITY status
(stated here for a battle whose only pending bet it is, with the
battle's active bets owned by other users and carrying other bet ids)
is refunded amount - amount * F_PLATFORM_IMMEDIATE to the bettor's
balance, its net contribution amount * (1 - F_HOUSE) is subtracted
from its participant's pool volume, and its status is set to
CANCELLED.  F_PLATFORM_IMMEDIATE is the parameter fImm: its defining
constant is not part of the sources, so the theorem holds for every
value of it. -/
theorem c7_pending_liquidity_refund (fImm : ℚ) (db : DB) (bid w : String)
    (battle : Battle) (b : Bet) (bal0 vol0 : ℚ)
    (hfind : findBattle db bid = some battle)
    (hact : battle.status = .ACTIVE)
    (hpend : pendingBetsOf db bid = [b])
    (hnoact : ∀ x ∈ (db.bets.filter (fun y => y.battleId = bid)).filter
        (fun y => y.status = .PENDING), x.userId ≠ b.userId ∧ x.id ≠ b.id)
    (hbal : getBalance db b.userId = some bal0)
    (hvol : poolVolume db bid b.characterId = some vol0) :
    ∃ db2, MvpBettingManager.settleBattle fImm bid w db = .ok db2
      ∧ getBalance db2 b.userId = some (bal0 + (b.amount - b.amount * fImm))
      ∧ poolVolume db2 bid b.characterId = some (vol0 - (b.amount - b.amount * F_HOUSE))
      ∧ getBetStatus db2 b.id = some .CANCELLED := by
  have hpend2 : (db.bets.filter (fun y => y.battleId = bid)).filter
      (fun y => y.status = .PENDING_LIQUIDITY) = [b] := hpend
  have hbmem : b ∈ db.bets := by
    have hb1 : b ∈ (db.bets.filter (fun y => y.battleId = bid)).filter
        (fun y => y.status = .PENDING_LIQUIDITY) := by
      rw [hpend2]; exact List.mem_singleton_self b
    exact List.mem_filter.mp ((List.mem_filter.mp hb1).1) |>.1
  have hwinmem : ∀ x ∈ ((db.bets.filter (fun y => y.battleId = bid)).filter
      (fun y => y.status = .PENDING)).filter (fun y => y.characterId = w),
      x.userId ≠ b.userId ∧ x.id ≠ b.id :=
    fun x hx => hnoact x (List.mem_filter.mp hx).1
  have hlosmem : ∀ x ∈ ((db.bets.filter (fun y => y.battleId = bid)).filter
      (fun y => y.status = .PENDING)).filter (fun y => y.characterId ≠ w),
      x.userId ≠ b.userId ∧ x.id ≠ b.id :=
    fun x hx => hnoact x (List.mem_filter.mp hx).1
  have hlostbal : ∀ (l : List Bet) (d : DB),
      getBalance (l.foldl MvpBettingManager.markBetLost d) b.userId
        = getBalance d b.userId :=
    fun l d => foldl_db_preserve (fun d => getBalance d b.userId)
      MvpBettingManager.markBetLost l (fun _ _ _ => rfl) d
  have hpaybal : ∀ (tw tl : ℚ) (l : List Bet), (∀ x ∈ l, x.userId ≠ b.userId) →
      ∀ d, getBalance (l.foldl (MvpBettingManager.payWinnerShare tw tl) d) b.userId
        = getBalance d b.userId :=
    fun tw tl l hl d => foldl_db_preserve (fun d => getBalance d b.userId)
      (MvpBettingManager.payWinnerShare tw tl) l
      (fun d x hx => by
        simp only [MvpBettingManager.getBalance_payWinnerShare]
        rw [if_neg (hl x hx)]) d
  have hrefbal : ∀ (l : List Bet), (∀ x ∈ l, x.userId ≠ b.userId) →
      ∀ d, getBalance (l.foldl MvpBettingManager.refundWinnerStake d) b.userId
        = getBalance d b.userId :=
    fun l hl d => foldl_db_preserve (fun d => getBalance d b.userId)
      MvpBettingManager.refundWinnerStake l
      (fun d x hx => by
        simp only [MvpBettingManager.getBalance_refundWinnerStake]
        rw [if_neg (hl x hx)]) d
  have hlostpool : ∀ (l : List Bet) (d : DB),
      poolVolume (l.foldl MvpBettingManager.markBetLost d) bid b.characterId
        = poolVolume d bid b.characterId :=
    fun l d => foldl_db_preserve (fun d => poolVolume d bid b.characterId)
      MvpBettingManager.markBetLost l (fun _ _ _ => rfl) d
  have hpaypool : ∀ (tw tl : ℚ) (l : List Bet) (d : DB),
      poolVolume (l.foldl (MvpBettingManager.payWinnerShare tw tl) d) bid b.characterId
        = poolVolume d bid b.characterId :=
    fun tw tl l d => foldl_db_preserve (fun d => poolVolume d bid b.characterId)
      (MvpBettingManager.payWinnerShare tw tl) l (fun _ _ _ => rfl) d
  have hrefpool : ∀ (l : List Bet) (d : DB),
      poolVolume (l.foldl MvpBettingManager.refundWinnerStake d) bid b.characterId
        = poolVolume d bid b.characterId :=
    fun l d => foldl_db_preserve (fun d => poolVolume d bid b.characterId)
      MvpBettingManager.refundWinnerStake l (fun _ _ _ => rfl) d
  have hloststat : ∀ (l : List Bet), (∀ x ∈ l, x.id ≠ b.id) →
      ∀ d, getBetStatus (l.foldl MvpBettingManager.markBetLost d) b.id
        = getBetStatus d b.id :=
    fun l hl d => foldl_db_preserve (fun d => getBetStatus d b.id)
      MvpBettingManager.markBetLost l
      (fun d x hx => by
        simp only [MvpBettingManager.getBetStatus_markBetLost]
        rw [if_neg (hl x hx)]) d
  have hpaystat : ∀ (tw tl : ℚ) (l : List Bet), (∀ x ∈ l, x.id ≠ b.id) →
      ∀ d, getBetStatus (l.foldl (MvpBettingManager.payWinnerShare tw tl) d) b.id
        = getBetStatus d b.id :=
    fun tw tl l hl d => foldl_db_preserve (fun d => getBetStatus d b.id)
      (MvpBettingManager.payWinnerShare tw tl) l
      (fun d x hx => by
        simp only [MvpBettingManager.getBetStatus_payWinnerShare]
        rw [if_neg (hl x hx)]) d
  have hrefstat : ∀ (l : List Bet), (∀ x ∈ l, x.id ≠ b.id) →
      ∀ d, getBetStatus (l.foldl MvpBettingManager.refundWinnerStake d) b.id
        = getBetStatus d b.id :=
    fun l hl d => foldl_db_preserve (fun d => getBetStatus d b.id)
      MvpBettingManager.refundWinnerStake l
      (fun d x hx => by
        simp only [MvpBettingManager.getBetStatus_refundWinnerStake]
        rw [if_neg (hl x hx)]) d
  unfold MvpBettingManager.settleBattle
  simp only [hfind]
  rw [if_neg (show ¬ battle.status ≠ BattleStatus.ACTIVE from fun hc => hc hact)]
  simp only [hpend2, List.foldl_cons, List.foldl_nil]
  refine ⟨_, rfl, ?_, ?_, ?_⟩
  · rw [getBalance_update_battles, hlostbal]
    have hfinal : getBalance (MvpBettingManager.refundPendingBet fImm bid db b) b.userId
        = some (bal0 + (b.amount - b.amount * fImm)) := by
      rw [MvpBettingManager.getBalance_refundPendingBet, if_pos rfl, hbal]
      rfl
    split
    · split
      · rw [hpaybal _ _ _ (fun x hx => (hwinmem x hx).1)]
        exact hfinal
      · exact hfinal
    · split
      · rw [hrefbal _ (fun x hx => (hwinmem x hx).1)]
        exact hfinal
      · exact hfinal
  · rw [poolVolume_update_battles, hlostpool]
    have hfinal : poolVolume (MvpBettingManager.refundPendingBet fImm bid db b)
        bid b.characterId
        = some (vol0 - (b.amount - b.amount * F_HOUSE)) := by
      rw [MvpBettingManager.poolVolume_refundPendingBet, if_pos ⟨rfl, rfl⟩, hvol]
      rfl
    split
    · split
      · rw [hpaypool]
        exact hfinal
      · exact hfinal
    · split
      · rw [hrefpool]
        exact hfinal
      · exact hfinal
  · rw [getBetStatus_update_battles, hloststat _ (fun x hx => (hlosmem x hx).2)]
    have hsome : ∃ st, getBetStatus db b.id = some st := by
      have hs : (db.bets.find? (fun y => y.id = b.id)).isSome :=
        List.find?_isSome.mpr ⟨b, hbmem, by simp⟩
      cases hc : db.bets.find? (fun y => y.id = b.id) with
      | none => rw [hc] at hs; simp at hs
      | some y => exact ⟨y.status, by unfold getBetStatus; rw [hc]; rfl⟩
    obtain ⟨st, hst⟩ := hsome
    have hfinal : getBetStatus (MvpBettingManager.refundPendingBet fImm bid db b) b.id
        = some .CANCELLED := by
      rw [MvpBettingManager.getBetStatus_refundPendingBet, if_pos rfl, hst]
      rfl
    split
    · split
      · rw [hpaystat _ _ _ (fun x hx => (hwinmem x hx).2)]
        exact hfinal
      · exact hfinal
    · split
      · rw [hrefstat _ (fun x hx => (hwinmem x hx).2)]
        exact hfinal
      · exact hfinal

/-- C7 witness: a battle whose only bet is one PENDING_LIQUIDITY bet of
100 by user P (net pool contribution 94.55 = 1891/20); settlement with
fImm = 0.0345 credits P with 100 - 100 * 0.0345, removes
100 - 100 * F_HOUSE from the pool, and cancels the bet. -/
theorem c7_witness :
    ∃ db2, MvpBettingManager.settleBattle 0.0345 "b1" "A"
        { users := [{ id := "P", balance := 0 }],
          battles := [{ id := "b1", type := .TEAM_BATTLE, startTime := 0,
                        status := .ACTIVE, participants := ["A", "B"], winnerId := none }],
          bets := [{ id := 0, userId := "P", battleId := "b1", characterId := "A",
                     amount := 100, odds := BN.num 1, status := .PENDING_LIQUIDITY }],
          pools := [{ battleId := "b1", characterId := "A", totalVolume := 1891/20 }],
          nextBetId := 1 }
      = .ok db2
      ∧ getBalance db2 "P" = some (0 + (100 - 100 * 0.0345))
      ∧ poolVolume db2 "b1" "A" = some (1891/20 - (100 - 100 * F_HOUSE))
      ∧ getBetStatus db2 0 = some .CANCELLED := by
  exact c7_pending_liquidity_refund 0.0345
    { users := [{ id := "P", balance := 0 }],
      battles := [{ id := "b1", type := .TEAM_BATTLE, startTime := 0,
                    status := .ACTIVE, participants := ["A", "B"], winnerId := none }],
      bets := [{ id := 0, userId := "P", battleId := "b1", characterId := "A",
                 amount := 100, odds := BN.num 1, status := .PENDING_LIQUIDITY }],
      pools := [{ battleId := "b1", characterId := "A", totalVolume := 1891/20 }],
      nextBetId := 1 }
    "b1" "A"
    { id := "b1", type := .TEAM_BATTLE, startTime := 0,
      status := .ACTIVE, participants := ["A", "B"], winnerId := none }
    { id := 0, userId := "P", battleId := "b1", characterId := "A",
      amount := 100, odds := BN.num 1, status := .PENDING_LIQUIDITY }
    0 (1891/20)
    (by simp [findBattle, List.find?])
    rfl
    (by simp [pendingBetsOf, List.filter])
    (by simp [List.filter])
    (by simp [getBalance, findUser, List.find?])
    (by simp [poolVolume, findPool, List.find?])

/-- C2 counterexample: a parimutuel market with one winning bet of
gross 100 (net stake 94.55) and one losing bet of gross 100 (losing
net pool 94.55 = 1891/20).  Settlement credits the winner with
100 + (100/100) * 94.55 = 194.55 = 3891/20 — the gross stake plus the
losing net pool — not the claimed
netStake + (netStake / totalWinningNetPool) * totalLosingNetPool
= 94.55 + 94.55 = 189.10. -/
theorem c2_counterexample_gross_stake_payout :
    (MvpBettingManager.settleBattle 0.0345 "b1" "A"
        { users := [{ id := "X", balance := 0 }, { id := "Y", balance := 0 }],
          battles := [{ id := "b1", type := .TEAM_BATTLE, startTime := 0,
                        status := .ACTIVE, participants := ["A", "B"], winnerId := none }],
          bets := [{ id := 0, userId := "X", battleId := "b1", characterId := "A",
                     amount := 100, odds := BN.num 1, status := .PENDING },
                   { id := 1, userId := "Y", battleId := "b1", characterId := "B",
                     amount := 100, odds := BN.num 1, status := .PENDING }],
          pools := [{ battleId := "b1", characterId := "A", totalVolume := 1891/20 },
                    { battleId := "b1", characterId := "B", totalVolume := 1891/20 }],
          nextBetId := 2 }).map (fun d => getBalance d "X")
      = .ok (some (3891/20))
    ∧ (3891/20 : ℚ) ≠ 1891/20 + ((1891/20) / (1891/20)) * (1891/20) := by
  constructor
  · simp [MvpBettingManager.settleBattle, findBattle, List.find?, List.filter,
      MvpBettingManager.payWinnerShare, MvpBettingManager.markBetLost,
      incrementUserBalance, setBetStatus, getBalance, findUser, Except.map,
      show trunc18 (100 / (0 + 100)) = 1 from by norm_num [trunc18, truncz],
      show (0:ℚ) + (100 + 1 * (0 + 1891/20)) = 3891/20 from by norm_num]
    norm_num [trunc18, truncz]
  · norm_num

/-- C2 amended: when settleBattle runs on a market with both winning
and losing active bets, a winning bet whose owner holds no other
active or pending stake in the market is paid
amount + trunc18(amount / totalWageredByWinners) * totalLosingNetPool:
the gross stake returned plus a share of the losing net pool pro-rata
by gross stake (the division being an 18-decimal ROUND_DOWN BigNumber
division), not the claimed net-stake-based formula. -/
theorem c2_amended_winner_payout (fImm : ℚ) (db : DB) (bid w : String)
    (battle : Battle) (wbet : Bet) (bal0 : ℚ)
    (hfind : findBattle db bid = some battle)
    (hact : battle.status = .ACTIVE)
    (hwb : (winningBetsOf db bid w).filter (fun x => x.userId = wbet.userId) = [wbet])
    (hlos : losingBetsOf db bid w ≠ [])
    (hpendown : (pendingBetsOf db bid).filter (fun x => x.userId = wbet.userId) = [])
    (htw : 0 < totalWageredOf db bid w)
    (hbal : getBalance db wbet.userId = some bal0) :
    ∃ db2, MvpBettingManager.settleBattle fImm bid w db = .ok db2
      ∧ getBalance db2 wbet.userId
          = some (bal0 + (wbet.amount
              + trunc18 (wbet.amount / totalWageredOf db bid w)
                * totalLosingPoolOf db bid w)) := by
  have hwb2 : (((db.bets.filter (fun y => y.battleId = bid)).filter
      (fun y => y.status = .PENDING)).filter (fun y => y.characterId = w)).filter
        (fun x => x.userId = wbet.userId) = [wbet] := hwb
  have hpend2 : ((db.bets.filter (fun y => y.battleId = bid)).filter
      (fun y => y.status = .PENDING_LIQUIDITY)).filter
        (fun x => x.userId = wbet.userId) = [] := hpendown
  have htw2 : 0 < ((((db.bets.filter (fun y => y.battleId = bid)).filter
      (fun y => y.status = .PENDING)).filter (fun y => y.characterId = w)).map
        Bet.amount).foldl (fun a b => a + b) 0 := htw
  have hlos2 : ((db.bets.filter (fun y => y.battleId = bid)).filter
      (fun y => y.status = .PENDING)).filter (fun y => y.characterId ≠ w) ≠ [] := hlos
  have hwmem : wbet ∈ ((db.bets.filter (fun y => y.battleId = bid)).filter
      (fun y => y.status = .PENDING)).filter (fun y => y.characterId = w) := by
    have hx : wbet ∈ (((db.bets.filter (fun y => y.battleId = bid)).filter
        (fun y => y.status = .PENDING)).filter (fun y => y.characterId = w)).filter
          (fun x => x.userId = wbet.userId) := by
      rw [hwb2]; exact List.mem_singleton_self wbet
    exact (List.mem_filter.mp hx).1
  have hwpos : (((db.bets.filter (fun y => y.battleId = bid)).filter
      (fun y => y.status = .PENDING)).filter (fun y => y.characterId = w)).length > 0 :=
    List.length_pos.mpr (List.ne_nil_of_mem hwmem)
  have hlpos : (((db.bets.filter (fun y => y.battleId = bid)).filter
      (fun y => y.status = .PENDING)).filter (fun y => y.characterId ≠ w)).length > 0 :=
    List.length_pos.mpr hlos2
  have hlostbal : ∀ (l : List Bet) (d : DB),
      getBalance (l.foldl MvpBettingManager.markBetLost d) wbet.userId
        = getBalance d wbet.userId :=
    fun l d => foldl_db_preserve (fun d => getBalance d wbet.userId)
      MvpBettingManager.markBetLost l (fun _ _ _ => rfl) d
  unfold MvpBettingManager.settleBattle
  simp only [hfind]
  rw [if_neg (show ¬ battle.status ≠ BattleStatus.ACTIVE from fun hc => hc hact)]
  rw [if_pos ⟨hwpos, hlpos⟩, if_pos htw2]
  refine ⟨_, rfl, ?_⟩
  rw [getBalance_update_battles, hlostbal]
  rw [getBalance_foldl_credit _ _ _
    (fun d bb => MvpBettingManager.getBalance_payWinnerShare _ _ d bb wbet.userId)]
  rw [hwb2]
  rw [getBalance_foldl_credit _ _ _
    (fun d bb => MvpBettingManager.getBalance_refundPendingBet fImm bid d bb wbet.userId)]
  rw [hpend2, hbal]
  simp only [Option.map_some, List.map_nil, List.sum_nil, List.map_cons, List.sum_cons,
    add_zero]
  rw [totalWageredOf, winningBetsOf, totalLosingPoolOf]
  simp

/-- C2 amended, witness: two-bet market, winner X with gross 100,
loser Y with gross 100 (losing net pool 94.55); X is credited the
gross stake plus the full losing net pool. -/
theorem c2_amended_witness :
    ∃ db2, MvpBettingManager.settleBattle 0.0345 "b1" "A"
        { users := [{ id := "X", balance := 0 }, { id := "Y", balance := 0 }],
          battles := [{ id := "b1", type := .TEAM_BATTLE, startTime := 0,
                        status := .ACTIVE, participants := ["A", "B"], winnerId := none }],
          bets := [{ id := 0, userId := "X", battleId := "b1", characterId := "A",
                     amount := 100, odds := BN.num 1, status := .PENDING },
                   { id := 1, userId := "Y", battleId := "b1", characterId := "B",
                     amount := 100, odds := BN.num 1, status := .PENDING }],
          pools := [{ battleId := "b1", characterId := "A", totalVolume := 1891/20 },
                    { battleId := "b1", characterId := "B", totalVolume := 1891/20 }],
          nextBetId := 2 }
      = .ok db2
      ∧ getBalance db2 "X"
          = some (0 + (100
              + trunc18 (100 / totalWageredOf
                  { users := [{ id := "X", balance := 0 }, { id := "Y", balance := 0 }],
                    battles := [{ id := "b1", type := .TEAM_BATTLE, startTime := 0,
                                  status := .ACTIVE, participants := ["A", "B"],
                                  winnerId := none }],
                    bets := [{ id := 0, userId := "X", battleId := "b1", characterId := "A",
                               amount := 100, odds := BN.num 1, status := .PENDING },
                             { id := 1, userId := "Y", battleId := "b1", characterId := "B",
                               amount := 100, odds := BN.num 1, status := .PENDING }],
                    pools := [{ battleId := "b1", characterId := "A", totalVolume := 1891/20 },
                              { battleId := "b1", characterId := "B", totalVolume := 1891/20 }],
                    nextBetId := 2 } "b1" "A")
                * totalLosingPoolOf
                  { users := [{ id := "X", balance := 0 }, { id := "Y", balance := 0 }],
                    battles := [{ id := "b1", type := .TEAM_BATTLE, startTime := 0,
                                  status := .ACTIVE, participants := ["A", "B"],
                                  winnerId := none }],
                    bets := [{ id := 0, userId := "X", battleId := "b1", characterId := "A",
                               amount := 100, odds := BN.num 1, status := .PENDING },
                             { id := 1, userId := "Y", battleId := "b1", characterId := "B",
                               amount := 100, odds := BN.num 1, status := .PENDING }],
                    pools := [{ battleId := "b1", characterId := "A", totalVolume := 1891/20 },
                              { battleId := "b1", characterId := "B", totalVolume := 1891/20 }],
                    nextBetId := 2 } "b1" "A")) := by
  exact c2_amended_winner_payout 0.0345
    { users := [{ id := "X", balance := 0 }, { id := "Y", balance := 0 }],
      battles := [{ id := "b1", type := .TEAM_BATTLE, startTime := 0,
                    status := .ACTIVE, participants := ["A", "B"], winnerId := none }],
      bets := [{ id := 0, userId := "X", battleId := "b1", characterId := "A",
                 amount := 100, odds := BN.num 1, status := .PENDING },
               { id := 1, userId := "Y", battleId := "b1", characterId := "B",
                 amount := 100, odds := BN.num 1, status := .PENDING }],
      pools := [{ battleId := "b1", characterId := "A", totalVolume := 1891/20 },
                { battleId := "b1", characterId := "B", totalVolume := 1891/20 }],
      nextBetId := 2 }
    "b1" "A"
    { id := "b1", type := .TEAM_BATTLE, startTime := 0,
      status := .ACTIVE, participants := ["A", "B"], winnerId := none }
    { id := 0, userId := "X", battleId := "b1", characterId := "A",
      amount := 100, odds := BN.num 1, status := .PENDING }
    0
    (by simp [findBattle, List.find?])
    rfl
    (by simp [winningBetsOf, List.filter])
    (by simp [losingBetsOf, List.filter])
    (by simp [pendingBetsOf, List.filter])
    (by simp [totalWageredOf, winningBetsOf, List.filter])
    (by simp [getBalance, findUser, List.find?])

/-- C6 counterexample: everyone bet the winner (one bet of gross 100,
net stake 94.55); settlement credits the winner the full gross 100,
not the claimed net stake 100 * (1 - F_HOUSE) = 94.55. -/
theorem c6_counterexample_gross_refund :
    (MvpBettingManager.settleBattle 0.0345 "b1" "A"
        { users := [{ id := "P", balance := 0 }],
          battles := [{ id := "b1", type := .TEAM_BATTLE, startTime := 0,
                        status := .ACTIVE, participants := ["A", "B"], winnerId := none }],
          bets := [{ id := 0, userId := "P", battleId := "b1", characterId := "A",
                     amount := 100, odds := BN.num 1, status := .PENDING }],
          pools := [{ battleId := "b1", characterId := "A", totalVolume := 1891/20 }],
          nextBetId := 1 }).map (fun d => getBalance d "P")
      = .ok (some 100)
    ∧ (100 : ℚ) ≠ 100 * (1 - F_HOUSE) := by
  constructor
  · simp [MvpBettingManager.settleBattle, findBattle, List.find?, List.filter,
      MvpBettingManager.refundWinnerStake, incrementUserBalance, setBetStatus,
      getBalance, findUser, Except.map]
  · norm_num [F_HOUSE, F_PLATFORM, F_PLAYER]

/-- C6 amended: when winning active bets exist but no losing active
bets, a winner whose user holds no other active or pending stake in
the market is credited the gross stake amount (the house fee deducted
into the pool is effectively returned from the house's point of view,
not withheld as the claim says), and the bet is marked Won. -/
theorem c6_amended_gross_stake_refund (fImm : ℚ) (db : DB) (bid w : String)
    (battle : Battle) (wbet : Bet) (bal0 : ℚ)
    (hfind : findBattle db bid = some battle)
    (hact : battle.status = .ACTIVE)
    (hwb : (winningBetsOf db bid w).filter (fun x => x.userId = wbet.userId) = [wbet])
    (hlos : losingBetsOf db bid w = [])
    (hpendown : (pendingBetsOf db bid).filter (fun x => x.userId = wbet.userId) = [])
    (hpendid : ∀ x ∈ pendingBetsOf db bid, x.id ≠ wbet.id)
    (hbal : getBalance db wbet.userId = some bal0) :
    ∃ db2, MvpBettingManager.settleBattle fImm bid w db = .ok db2
      ∧ getBalance db2 wbet.userId = some (bal0 + wbet.amount)
      ∧ getBetStatus db2 wbet.id = some .WON := by
  have hwb2 : (((db.bets.filter (fun y => y.battleId = bid)).filter
      (fun y => y.status = .PENDING)).filter (fun y => y.characterId = w)).filter
        (fun x => x.userId = wbet.userId) = [wbet] := hwb
  have hpend2 : ((db.bets.filter (fun y => y.battleId = bid)).filter
      (fun y => y.status = .PENDING_LIQUIDITY)).filter
        (fun x => x.userId = wbet.userId) = [] := hpendown
  have hpendid2 : ∀ x ∈ (db.bets.filter (fun y => y.battleId = bid)).filter
      (fun y => y.status = .PENDING_LIQUIDITY), x.id ≠ wbet.id := hpendid
  have hlos2 : ((db.bets.filter (fun y => y.battleId = bid)).filter
      (fun y => y.status = .PENDING)).filter (fun y => y.characterId ≠ w) = [] := hlos
  have hwmem : wbet ∈ ((db.bets.filter (fun y => y.battleId = bid)).filter
      (fun y => y.status = .PENDING)).filter (fun y => y.characterId = w) := by
    have hx : wbet ∈ (((db.bets.filter (fun y => y.battleId = bid)).filter
        (fun y => y.status = .PENDING)).filter (fun y => y.characterId = w)).filter
          (fun x => x.userId = wbet.userId) := by
      rw [hwb2]; exact List.mem_singleton_self wbet
    exact (List.mem_filter.mp hx).1
  have hwbmem : wbet ∈ db.bets :=
    (List.mem_filter.mp (List.mem_filter.mp (List.mem_filter.mp hwmem).1).1).1
  have hwpos : (((db.bets.filter (fun y => y.battleId = bid)).filter
      (fun y => y.status = .PENDING)).filter (fun y => y.characterId = w)).length > 0 :=
    List.length_pos.mpr (List.ne_nil_of_mem hwmem)
  have hcond1 : ¬ ((((db.bets.filter (fun y => y.battleId = bid)).filter
      (fun y => y.status = .PENDING)).filter (fun y => y.characterId = w)).length > 0
      ∧ (((db.bets.filter (fun y => y.battleId = bid)).filter
        (fun y => y.status = .PENDING)).filter (fun y => y.characterId ≠ w)).length > 0) := by
    rw [hlos2]; simp
  have hpendstat : ∀ (d : DB),
      getBetStatus ((((db.bets.filter (fun y => y.battleId = bid)).filter
        (fun y => y.status = .PENDING_LIQUIDITY))).foldl
          (MvpBettingManager.refundPendingBet fImm bid) d) wbet.id
      = getBetStatus d wbet.id :=
    fun d => foldl_db_preserve (fun d => getBetStatus d wbet.id)
      (MvpBettingManager.refundPendingBet fImm bid) _
      (fun d x hx => by
        simp only [MvpBettingManager.getBetStatus_refundPendingBet]
        rw [if_neg (hpendid2 x hx)]) d
  have hsomedb : ∃ st, getBetStatus db wbet.id = some st := by
    have hs : (db.bets.find? (fun y => y.id = wbet.id)).isSome :=
      List.find?_isSome.mpr ⟨wbet, hwbmem, by simp⟩
    cases hc : db.bets.find? (fun y => y.id = wbet.id) with
    | none => rw [hc] at hs; simp at hs
    | some y => exact ⟨y.status, by unfold getBetStatus; rw [hc]; rfl⟩
  obtain ⟨st0, hst0⟩ := hsomedb
  unfold MvpBettingManager.settleBattle
  simp only [hfind]
  rw [if_neg (show ¬ battle.status ≠ BattleStatus.ACTIVE from fun hc => hc hact)]
  rw [if_neg hcond1, if_pos ⟨hwpos, by rw [hlos2]; rfl⟩]
  rw [hlos2]
  simp only [List.foldl_nil]
  refine ⟨_, rfl, ?_, ?_⟩
  · rw [getBalance_update_battles]
    rw [getBalance_foldl_credit _ _ _
      (fun d bb => MvpBettingManager.getBalance_refundWinnerStake d bb wbet.userId)]
    rw [hwb2]
    rw [getBalance_foldl_credit _ _ _
      (fun d bb => MvpBettingManager.getBalance_refundPendingBet fImm bid d bb wbet.userId)]
    rw [hpend2, hbal]
    simp [add_zero]
  · rw [getBetStatus_update_battles]
    refine getBetStatus_foldl_sets _ .WON wbet.id
      (fun d bb => MvpBettingManager.getBetStatus_refundWinnerStake d bb wbet.id) _ _
      ⟨wbet, hwmem, rfl⟩ ?_
    rw [hpendstat, hst0]
    rfl

/-- C6 amended, witness: single winning bet of gross 100 by user P,
no losers; P is credited 100 and the bet is marked Won. -/
theorem c6_amended_witness :
    ∃ db2, MvpBettingManager.settleBattle 0.0345 "b1" "A"
        { users := [{ id := "P", balance := 0 }],
          battles := [{ id := "b1", type := .TEAM_BATTLE, startTime := 0,
                        status := .ACTIVE, participants := ["A", "B"], winnerId := none }],
          bets := [{ id := 0, userId := "P", battleId := "b1", characterId := "A",
                     amount := 100, odds := BN.num 1, status := .PENDING }],
          pools := [{ battleId := "b1", characterId := "A", totalVolume := 1891/20 }],
          nextBetId := 1 }
      = .ok db2
      ∧ getBalance db2 "P" = some (0 + 100)
      ∧ getBetStatus db2 0 = some .WON := by
  exact c6_amended_gross_stake_refund 0.0345
    { users := [{ id := "P", balance := 0 }],
      battles := [{ id := "b1", type := .TEAM_BATTLE, startTime := 0,
                    status := .ACTIVE, participants := ["A", "B"], winnerId := none }],
      bets := [{ id := 0, userId := "P", battleId := "b1", characterId := "A",
                 amount := 100, odds := BN.num 1, status := .PENDING }],
      pools := [{ battleId := "b1", characterId := "A", totalVolume := 1891/20 }],
      nextBetId := 1 }
    "b1" "A"
    { id := "b1", type := .TEAM_BATTLE, startTime := 0,
      status := .ACTIVE, participants := ["A", "B"], winnerId := none }
    { id := 0, userId := "P", battleId := "b1", characterId := "A",
      amount := 100, odds := BN.num 1, status := .PENDING }
    0
    (by simp [findBattle, List.find?])
    rfl
    (by simp [winningBetsOf, List.filter])
    (by simp [losingBetsOf, List.filter])
    (by simp [pendingBetsOf, List.filter])
    (by simp [pendingBetsOf, List.filter])
    (by simp [getBalance, findUser, List.find?])

end Colosseum
